import Mathlib

/-!
# Nuvoton M25x standard driver: clock controller, LCD and timer PWM

A shallow embedding of routines of `clk.c`, `lcd.c` and `timer_pwm.c` in
`targets/M2xx/CMSIS/StdDriver/M25x/src/` and theorems about them: the PLL
search of `CLK_EnablePLL`, `CLK_WaitClockReady`, `CLK_GetPLLClockFreq`,
`CLK_SetCoreClock`, the module clock dividers, `CLK_PowerDown`, the frame-rate
computations of the LCD driver, `LCD_SetPixel`, and
`TPWM_ConfigOutputFreqAndDuty`.

Conventions of the embedding:

* a `uint32_t` is a `Nat`; every operation that can leave the 32-bit range is
  written with an explicit `% 2 ^ 32`;
* the device header (`NuMicro.h`) is not part of the sources, so the register
  bit masks, preset words and macros it defines are collected in structures
  (`Hw`, `HclkHw`, `LcdHw`, `ModHw`, `PdHw`) and every theorem holds for every
  value of them; the instances named `sample...` serve concrete evaluation only;
* `CLK->STATUS` is volatile: the state carries the sequence of values the
  successive reads return and the number of reads performed so far;
* a C division whose divisor is zero has no value: such an expression is
  `none`.
-/

namespace M25x

/-! ## Frequencies -/

/-- Modelled from the spec: `FREQ_4MHZ` of the device header, 4 MHz in Hz. -/
def FREQ_4MHZ : Nat := 4000000

/-- Modelled from the spec: `FREQ_8MHZ` of the device header, 8 MHz in Hz. -/
def FREQ_8MHZ : Nat := 8000000

/-- Modelled from the spec: `FREQ_16MHZ` of the device header, 16 MHz in Hz. -/
def FREQ_16MHZ : Nat := 16000000

/-- Modelled from the spec: `FREQ_64MHZ` of the device header, 64 MHz in Hz. -/
def FREQ_64MHZ : Nat := 64000000

/-- Modelled from the spec: `FREQ_100MHZ` of the device header, 100 MHz in Hz. -/
def FREQ_100MHZ : Nat := 100000000

/-- Modelled from the spec: `__HXT` of the device header, the external crystal,
12 MHz (`clk.c` line 340: `u32PllSrcClk = __HXT;//12 MHz`). -/
def __HXT : Nat := 12000000

/-- Modelled from the spec: `__HIRC` of the device header, the 48 MHz internal
oscillator (`clk.c` line 357: `(__HIRC >> 2); //12 MHz`). -/
def __HIRC : Nat := 48000000

/-- Modelled from the spec: `__MIRC` of the device header, the 4 MHz internal
oscillator (`clk.c` line 373: `u32PllSrcClk = __MIRC;//4 MHz`). -/
def __MIRC : Nat := 4000000

/-! ## The search of `CLK_EnablePLL` (lines 379-447) -/

/-- The four locals `u32Min`, `u32MinNR`, `u32MinNF`, `u32MinNO` that hold the
best candidate seen so far. -/
structure Best where
  u32Min : Nat
  u32MinNR : Nat
  u32MinNF : Nat
  u32MinNO : Nat
deriving DecidableEq

/-- Lines 379-382: `u32Min = (uint32_t) - 1UL` and the three indices zero. -/
def Best.init : Best := ⟨2 ^ 32 - 1, 0, 0, 0⟩

/-- Lines 417-429: the absolute difference of `u32Tmp2` and the target
`u32PllFreq`, shifted right by 2 for index 3 and by 1 for index 1. -/
def u32Tmp3 (u32Tmp2 u32PllFreq u32NO : Nat) : Nat :=
  let d := if u32Tmp2 > u32PllFreq then u32Tmp2 - u32PllFreq else u32PllFreq - u32Tmp2
  if u32NO = 3 then d >>> 2
  else if u32NO = 1 then d >>> 1
  else d

/-- Lines 411-443: the loop `for (u32NF = 8; u32NF <= 25; u32NF++)`, run over
the list of the values of `u32NF` still to visit; the `break` of line 440
leaves this loop only. -/
def loopNF (u32Tmp u32PllFreq u32NO u32NR : Nat) : List Nat → Best → Best
  | [], b => b
  | u32NF :: rest, b =>
    let u32Tmp2 := (u32Tmp * u32NF) % 2 ^ 32
    if FREQ_64MHZ ≤ u32Tmp2 ∧ u32Tmp2 ≤ FREQ_100MHZ then
      if u32Tmp3 u32Tmp2 u32PllFreq u32NO < b.u32Min then
        let b1 : Best := ⟨u32Tmp3 u32Tmp2 u32PllFreq u32NO, u32NR, u32NF, u32NO⟩
        if b1.u32Min = 0 then b1
        else loopNF u32Tmp u32PllFreq u32NO u32NR rest b1
      else loopNF u32Tmp u32PllFreq u32NO u32NR rest b
    else loopNF u32Tmp u32PllFreq u32NO u32NR rest b

/-- Lines 405-445: the loop `for (u32NR = 1; u32NR <= 6; u32NR++)`, run over
the list of the values of `u32NR` still to visit. -/
def loopNR (u32PllSrcClk u32PllFreq u32NO : Nat) : List Nat → Best → Best
  | [], b => b
  | u32NR :: rest, b =>
    let u32Tmp := u32PllSrcClk / u32NR
    if FREQ_4MHZ ≤ u32Tmp ∧ u32Tmp ≤ FREQ_8MHZ then
      loopNR u32PllSrcClk u32PllFreq u32NO rest
        (loopNF u32Tmp u32PllFreq u32NO u32NR (List.range' 8 18) b)
    else loopNR u32PllSrcClk u32PllFreq u32NO rest b

/-- Lines 393-403: the target `u32PllFreq` for output-divider index `u32NO`;
for an index other than 3 and 1 the variable keeps its value. -/
def scaleTarget (u32PllBassFreq u32PllFreq u32NO : Nat) : Nat :=
  if u32NO = 3 then (u32PllBassFreq <<< 2) % 2 ^ 32
  else if u32NO = 1 then (u32PllBassFreq <<< 1) % 2 ^ 32
  else u32PllFreq

/-- Lines 385-447: the loop `for (u32NO = 0; u32NO <= 3; u32NO++)`, run over
the list of the values of `u32NO` still to visit; `u32PllFreq` is the mutable
target, `u32PllBassFreq` the request. -/
def loopNO (u32PllSrcClk u32PllBassFreq : Nat) : List Nat → Nat → Best → Best
  | [], _, b => b
  | u32NO :: rest, u32PllFreq, b =>
    if b.u32Min = 0 then b
    else if u32NO ≠ 2 then
      loopNO u32PllSrcClk u32PllBassFreq rest (scaleTarget u32PllBassFreq u32PllFreq u32NO)
        (loopNR u32PllSrcClk (scaleTarget u32PllBassFreq u32PllFreq u32NO) u32NO
          (List.range' 1 6) b)
    else loopNO u32PllSrcClk u32PllBassFreq rest u32PllFreq b

/-- Lines 379-447: the whole search for the source frequency `u32PllSrcClk`
and the request `u32PllFreq`. -/
def pllSearch (u32PllSrcClk u32PllFreq : Nat) : Best :=
  loopNO u32PllSrcClk u32PllFreq [0, 1, 2, 3] u32PllFreq Best.init

/-- Line 462: `u32PllSrcClk / ((u32MinNO + 1UL) * u32MinNR) * u32MinNF`; no
value when the divisor is zero. -/
def pllReturn (u32PllSrcClk : Nat) (b : Best) : Option Nat :=
  let d := ((b.u32MinNO + 1) * b.u32MinNR) % 2 ^ 32
  if d = 0 then none
  else some ((u32PllSrcClk / d * b.u32MinNF) % 2 ^ 32)

/-- Line 456: the word `u32ClkSrc | (u32MinNO << 14) | (u32MinNR << 9) | u32MinNF`. -/
def pllWord (u32ClkSrc : Nat) (b : Best) : Nat :=
  u32ClkSrc ||| ((b.u32MinNO <<< 14) % 2 ^ 32) ||| ((b.u32MinNR <<< 9) % 2 ^ 32) ||| b.u32MinNF

/-! ## Candidates of the search -/

/-- The record the search stores when it accepts the candidate
`(u32NO, u32NR, u32NF)` for the source `src` and the request `f`. -/
def candidate (src f u32NO u32NR u32NF : Nat) : Best :=
  ⟨u32Tmp3 ((src / u32NR * u32NF) % 2 ^ 32) (scaleTarget f f u32NO) u32NO, u32NR, u32NF, u32NO⟩

/-- The two range checks of lines 409 and 415 for the pair `(u32NR, u32NF)`. -/
def passes (src u32NR u32NF : Nat) : Prop :=
  (FREQ_4MHZ ≤ src / u32NR ∧ src / u32NR ≤ FREQ_8MHZ) ∧
  (FREQ_64MHZ ≤ (src / u32NR * u32NF) % 2 ^ 32 ∧ (src / u32NR * u32NF) % 2 ^ 32 ≤ FREQ_100MHZ)

instance (src u32NR u32NF : Nat) : Decidable (passes src u32NR u32NF) := by
  unfold passes; infer_instance

/-- The settings the claim ranges over, in the words of the specification:
`R` in 1..6 with 4 MHz ≤ src/R ≤ 8 MHz and `F` in 8..25 with
64 MHz ≤ (src/R)*F ≤ 100 MHz. -/
def Admissible (src R F : Nat) : Prop :=
  (1 ≤ R ∧ R ≤ 6) ∧ (4000000 ≤ src / R ∧ src / R ≤ 8000000) ∧
  (8 ≤ F ∧ F ≤ 25) ∧ (64000000 ≤ src / R * F ∧ src / R * F ≤ 100000000)

instance (src R F : Nat) : Decidable (Admissible src R F) := by
  unfold Admissible; infer_instance

/-! ## Registers and the device header -/

/-- The constants of the device header `NuMicro.h` that the PLL routines use.
The header is not part of the sources, so they are parameters. -/
structure Hw where
  CLK_PLLCTL_PD_Msk : Nat
  CLK_PLLCTL_OE_Msk : Nat
  CLK_PLLCTL_BP_Msk : Nat
  CLK_PLLCTL_PLLSRC_Msk : Nat
  CLK_PLLCTL_OUTDIV_Msk : Nat
  CLK_PLLCTL_OUTDIV_Pos : Nat
  CLK_PLLCTL_FBDIV_Msk : Nat
  CLK_PLLCTL_FBDIV_Pos : Nat
  CLK_PLLCTL_INDIV_Msk : Nat
  CLK_PLLCTL_INDIV_Pos : Nat
  CLK_PLLCTL_PLLSRC_HXT : Nat
  CLK_PLLCTL_PLLSRC_HIRC_DIV4 : Nat
  CLK_PLLCTL_PLLSRC_MIRC : Nat
  CLK_PLLCTL_16MHz_HXT : Nat
  CLK_PLLCTL_16MHz_HIRC_DIV4 : Nat
  CLK_PLLCTL_16MHz_MIRC : Nat
  CLK_PLLCTL_100MHz_HXT : Nat
  CLK_PLLCTL_100MHz_HIRC_DIV4 : Nat
  CLK_PLLCTL_100MHz_MIRC : Nat
  CLK_PWRCTL_HXTEN_Msk : Nat
  CLK_PWRCTL_HIRCEN_Msk : Nat
  CLK_PWRCTL_MIRCEN_Msk : Nat
  CLK_STATUS_HXTSTB_Msk : Nat
  CLK_STATUS_HIRCSTB_Msk : Nat
  CLK_STATUS_MIRCSTB_Msk : Nat
  CLK_STATUS_PLLSTB_Msk : Nat
  CLK_TIMEOUT_ERR : Int

/-- The part of the machine state the PLL routines read and write.
`STATUS k` is the value the read number `k` of `CLK->STATUS` returns and
`reads` counts the reads performed so far. -/
structure ClkState where
  PLLCTL : Nat
  PWRCTL : Nat
  STATUS : Nat → Nat
  reads : Nat
  SystemCoreClock : Nat
  g_CLK_i32ErrCode : Int

/-- The 32-bit complement `~x`. -/
def not32 (x : Nat) : Nat := 2 ^ 32 - 1 - x % 2 ^ 32

/-- The 32-bit decrement `--x`, which wraps from 0 to `2 ^ 32 - 1`. -/
def dec32 (x : Nat) : Nat :=
  if x % 2 ^ 32 = 0 then 2 ^ 32 - 1 else x % 2 ^ 32 - 1

/-- Lines 906-913: the polling loop of `CLK_WaitClockReady`. The argument `n` is
the value `--u32TimeOutCnt` (line 908) takes when the next test of
`CLK->STATUS` fails: at 0 the loop times out, otherwise it goes round with the
counter `n`, whose next decrement is `n - 1`. The first component is the value
returned. -/
def waitLoop (hw : Hw) (u32ClkMask : Nat) : Nat → ClkState → Nat × ClkState
  | 0, st =>
    if st.STATUS st.reads &&& u32ClkMask ≠ 0 then
      (1, { st with reads := st.reads + 1 })
    else
      (0, { st with reads := st.reads + 1, g_CLK_i32ErrCode := hw.CLK_TIMEOUT_ERR })
  | n + 1, st =>
    if st.STATUS st.reads &&& u32ClkMask ≠ 0 then
      (1, { st with reads := st.reads + 1 })
    else
      waitLoop hw u32ClkMask n { st with reads := st.reads + 1 }

/-- Lines 900-916: `CLK_WaitClockReady`: the counter starts at
`SystemCoreClock`, the error code is cleared, and the loop runs. -/
def CLK_WaitClockReady (hw : Hw) (u32ClkMask : Nat) (st : ClkState) : Nat × ClkState :=
  waitLoop hw u32ClkMask (dec32 st.SystemCoreClock) { st with g_CLK_i32ErrCode := 0 }

/-- Line 285: the table `au8NoTbl`. -/
def au8NoTbl : List Nat := [1, 2, 4, 4]

/-- Lines 267-275 of `CLK_GetPLLClockFreq`: the source frequency `u32FIN`
selected by the source bits of the word `u32Reg`. -/
def pllFIN (hw : Hw) (u32Reg : Nat) : Nat :=
  if u32Reg &&& hw.CLK_PLLCTL_PLLSRC_Msk ≠ 0 then
    if u32Reg &&& hw.CLK_PLLCTL_PLLSRC_Msk = hw.CLK_PLLCTL_PLLSRC_MIRC then __MIRC
    else __HIRC >>> 2
  else __HXT

/-- Line 292 of `CLK_GetPLLClockFreq`:
`(((u32FIN >> 2) * u32NF) / (u32NR * u32NO) << 2)`; no value when the divisor
is zero. -/
def pllFreqCalc (u32FIN u32NF u32NR u32NO : Nat) : Option Nat :=
  if (u32NR * u32NO) % 2 ^ 32 = 0 then none
  else some (((((u32FIN >>> 2) * u32NF) % 2 ^ 32 / ((u32NR * u32NO) % 2 ^ 32)) <<< 2)
    % 2 ^ 32)

/-- Lines 254-297: `CLK_GetPLLClockFreq`; no value when the table index is out
of range or the divisor is zero. -/
def CLK_GetPLLClockFreq (hw : Hw) (st : ClkState) : Option Nat :=
  let u32Reg := st.PLLCTL
  if u32Reg &&& (hw.CLK_PLLCTL_PD_Msk ||| hw.CLK_PLLCTL_OE_Msk) = 0 then
    let u32FIN := pllFIN hw u32Reg
    if u32Reg &&& hw.CLK_PLLCTL_BP_Msk ≠ 0 then some u32FIN
    else
      match au8NoTbl[(u32Reg &&& hw.CLK_PLLCTL_OUTDIV_Msk) >>> hw.CLK_PLLCTL_OUTDIV_Pos]? with
      | none => none
      | some u32NO =>
        let u32NF := (u32Reg &&& hw.CLK_PLLCTL_FBDIV_Msk) >>> hw.CLK_PLLCTL_FBDIV_Pos
        let u32NR := (u32Reg &&& hw.CLK_PLLCTL_INDIV_Msk) >>> hw.CLK_PLLCTL_INDIV_Pos
        pllFreqCalc u32FIN u32NF u32NR u32NO
  else some 0

/-- Lines 304-307: `CLK_DisablePLL`. -/
def CLK_DisablePLL (hw : Hw) (st : ClkState) : ClkState :=
  { st with PLLCTL := st.PLLCTL ||| hw.CLK_PLLCTL_PD_Msk }

/-- Lines 329-374 of `CLK_EnablePLL`: enable and await the source oscillator;
the result is `(u32ClkSrc, u32PllSrcClk, state)`. -/
def selectSource (hw : Hw) (u32PllClkSrc : Nat) (st : ClkState) : Nat × Nat × ClkState :=
  if u32PllClkSrc = hw.CLK_PLLCTL_PLLSRC_HXT then
    let st1 := { st with PWRCTL :=
      (st.PWRCTL &&& not32 hw.CLK_PWRCTL_HXTEN_Msk) ||| hw.CLK_PWRCTL_HXTEN_Msk }
    let st2 := (CLK_WaitClockReady hw hw.CLK_STATUS_HXTSTB_Msk st1).2
    (hw.CLK_PLLCTL_PLLSRC_HXT, __HXT, st2)
  else if u32PllClkSrc = hw.CLK_PLLCTL_PLLSRC_HIRC_DIV4 then
    let st1 := { st with PWRCTL := st.PWRCTL ||| hw.CLK_PWRCTL_HIRCEN_Msk }
    let st2 := { st1 with PWRCTL := st1.PWRCTL ||| hw.CLK_PWRCTL_MIRCEN_Msk }
    let st3 := (CLK_WaitClockReady hw hw.CLK_STATUS_HIRCSTB_Msk st2).2
    let st4 := (CLK_WaitClockReady hw hw.CLK_STATUS_MIRCSTB_Msk st3).2
    (hw.CLK_PLLCTL_PLLSRC_HIRC_DIV4, __HIRC >>> 2, st4)
  else
    let st1 := { st with PWRCTL := st.PWRCTL ||| hw.CLK_PWRCTL_MIRCEN_Msk }
    let st2 := { st1 with PWRCTL := st1.PWRCTL ||| hw.CLK_PWRCTL_HIRCEN_Msk }
    let st3 := (CLK_WaitClockReady hw hw.CLK_STATUS_MIRCSTB_Msk st2).2
    let st4 := (CLK_WaitClockReady hw hw.CLK_STATUS_HIRCSTB_Msk st3).2
    (hw.CLK_PLLCTL_PLLSRC_MIRC, __MIRC, st4)

/-- Lines 467-484 of `CLK_EnablePLL`: the preset word written after `lexit`. -/
def presetWord (hw : Hw) (u32PllClkSrc u32PllFreq : Nat) : Nat :=
  if u32PllFreq < FREQ_16MHZ then
    if u32PllClkSrc = hw.CLK_PLLCTL_PLLSRC_HXT then hw.CLK_PLLCTL_16MHz_HXT
    else if u32PllClkSrc = hw.CLK_PLLCTL_PLLSRC_HIRC_DIV4 then hw.CLK_PLLCTL_16MHz_HIRC_DIV4
    else hw.CLK_PLLCTL_16MHz_MIRC
  else
    if u32PllClkSrc = hw.CLK_PLLCTL_PLLSRC_HXT then hw.CLK_PLLCTL_100MHz_HXT
    else if u32PllClkSrc = hw.CLK_PLLCTL_PLLSRC_HIRC_DIV4 then hw.CLK_PLLCTL_100MHz_HIRC_DIV4
    else hw.CLK_PLLCTL_100MHz_MIRC

/-- Lines 376-491 of `CLK_EnablePLL`: the part that follows the selection of
the source, for the selector `u32PllClkSrc`, the source bits `u32ClkSrc` and
the source frequency `u32PllSrcClk`. The first component is the value returned
(none when the returned expression divides by zero), the second the state on
return. -/
def applyPll (hw : Hw) (u32PllClkSrc u32ClkSrc u32PllSrcClk u32PllFreq : Nat)
    (st1 : ClkState) : Option Nat × ClkState :=
  if u32PllFreq ≤ FREQ_100MHZ ∧ u32PllFreq ≥ FREQ_16MHZ then
    let b := pllSearch u32PllSrcClk u32PllFreq
    let st2 := { st1 with PLLCTL := pllWord u32ClkSrc b }
    let st3 := (CLK_WaitClockReady hw hw.CLK_STATUS_PLLSTB_Msk st2).2
    (pllReturn u32PllSrcClk b, st3)
  else
    let st2 := { st1 with PLLCTL := presetWord hw u32PllClkSrc u32PllFreq }
    let st3 := (CLK_WaitClockReady hw hw.CLK_STATUS_PLLSTB_Msk st2).2
    (CLK_GetPLLClockFreq hw st3, st3)

/-- Lines 321-491: `CLK_EnablePLL`; the first component is the value returned
(none when the returned expression divides by zero), the second the state on
return. -/
def CLK_EnablePLL (hw : Hw) (u32PllClkSrc u32PllFreq : Nat) (st : ClkState) :
    Option Nat × ClkState :=
  let src := selectSource hw u32PllClkSrc (CLK_DisablePLL hw st)
  applyPll hw u32PllClkSrc src.1 src.2.1 u32PllFreq src.2.2

/-- An instance of the header constants, used to evaluate the routines on
concrete inputs. The field positions of `PLLCTL` follow line 456 (feedback
divider at bit 0, input divider at bit 9, output divider at bit 14). -/
def sampleHw : Hw where
  CLK_PLLCTL_PD_Msk := 0x10000
  CLK_PLLCTL_OE_Msk := 0x40000
  CLK_PLLCTL_BP_Msk := 0x20000
  CLK_PLLCTL_PLLSRC_Msk := 0x180000
  CLK_PLLCTL_OUTDIV_Msk := 0xC000
  CLK_PLLCTL_OUTDIV_Pos := 14
  CLK_PLLCTL_FBDIV_Msk := 0x1FF
  CLK_PLLCTL_FBDIV_Pos := 0
  CLK_PLLCTL_INDIV_Msk := 0x3E00
  CLK_PLLCTL_INDIV_Pos := 9
  CLK_PLLCTL_PLLSRC_HXT := 0
  CLK_PLLCTL_PLLSRC_HIRC_DIV4 := 0x80000
  CLK_PLLCTL_PLLSRC_MIRC := 0x100000
  CLK_PLLCTL_16MHz_HXT := 0xC610
  CLK_PLLCTL_16MHz_HIRC_DIV4 := 0x8C610
  CLK_PLLCTL_16MHz_MIRC := 0x10C210
  CLK_PLLCTL_100MHz_HXT := 0x619
  CLK_PLLCTL_100MHz_HIRC_DIV4 := 0x80619
  CLK_PLLCTL_100MHz_MIRC := 0x100219
  CLK_PWRCTL_HXTEN_Msk := 0x1
  CLK_PWRCTL_HIRCEN_Msk := 0x4
  CLK_PWRCTL_MIRCEN_Msk := 0x100000
  CLK_STATUS_HXTSTB_Msk := 0x1
  CLK_STATUS_HIRCSTB_Msk := 0x10
  CLK_STATUS_MIRCSTB_Msk := 0x20
  CLK_STATUS_PLLSTB_Msk := 0x4
  CLK_TIMEOUT_ERR := -1

/-- A state in which the core clock is 3 and `CLK->STATUS` reads as zero three
times and shows every stable flag from then on. -/
def lateState : ClkState where
  PLLCTL := 0
  PWRCTL := 0
  STATUS := fun k => if k < 3 then 0 else 0x35
  reads := 0
  SystemCoreClock := 3
  g_CLK_i32ErrCode := 0

/-! ## `CLK_SetHCLK` and `CLK_SetCoreClock` (lines 508-580) -/

/-- Modelled from the spec: `FREQ_25MHZ` of the device header, 25 MHz in Hz
(`clk.c` line 547: "The range of u32Hclk is 25 MHz ~ 48 MHz"). -/
def FREQ_25MHZ : Nat := 25000000

/-- Modelled from the spec: `FREQ_48MHZ` of the device header, 48 MHz in Hz
(`clk.c` line 547: "The range of u32Hclk is 25 MHz ~ 48 MHz"). -/
def FREQ_48MHZ : Nat := 48000000

/-- The state `CLK_SetCoreClock` works on: the state of the PLL routines and
the two registers `CLK->CLKSEL0` and `CLK->CLKDIV0`. -/
structure CoreState where
  clk : ClkState
  CLKSEL0 : Nat
  CLKDIV0 : Nat

/-- The constants and macros of the device header that `CLK_SetHCLK` and
`CLK_SetCoreClock` use besides those of `Hw`, and the routine
`SystemCoreClockUpdate` of the system file, which is not part of the sources:
it is taken as the function that gives the new value of `SystemCoreClock`. -/
structure HclkHw where
  CLK_CLKSEL0_HCLKSEL_Msk : Nat
  CLK_CLKSEL0_HCLKSEL_HIRC : Nat
  CLK_CLKSEL0_HCLKSEL_MIRC : Nat
  CLK_CLKSEL0_HCLKSEL_PLL : Nat
  CLK_CLKDIV0_HCLKDIV_Msk : Nat
  CLK_CLKDIV0_HCLK : Nat → Nat
  SystemCoreClockUpdate : CoreState → Nat

/-- Lines 508-532: `CLK_SetHCLK`. -/
def CLK_SetHCLK (hw : Hw) (hh : HclkHw) (u32ClkSrc u32ClkDiv : Nat) (s : CoreState) :
    CoreState :=
  let u32HircStable := s.clk.STATUS s.clk.reads &&& hw.CLK_STATUS_HIRCSTB_Msk
  let c1 : ClkState := { s.clk with reads := s.clk.reads + 1 }
  let c2 : ClkState := { c1 with PWRCTL := c1.PWRCTL ||| hw.CLK_PWRCTL_HIRCEN_Msk }
  let c3 := (CLK_WaitClockReady hw hw.CLK_STATUS_HIRCSTB_Msk c2).2
  let sel1 := (s.CLKSEL0 &&& not32 hh.CLK_CLKSEL0_HCLKSEL_Msk) ||| hh.CLK_CLKSEL0_HCLKSEL_HIRC
  let div1 := (s.CLKDIV0 &&& not32 hh.CLK_CLKDIV0_HCLKDIV_Msk) ||| u32ClkDiv
  let sel2 := (sel1 &&& not32 hh.CLK_CLKSEL0_HCLKSEL_Msk) ||| u32ClkSrc
  let s4 : CoreState := { clk := c3, CLKSEL0 := sel2, CLKDIV0 := div1 }
  let c5 : ClkState := { c3 with SystemCoreClock := hh.SystemCoreClockUpdate s4 }
  if u32HircStable = 0 then
    { s4 with clk := { c5 with PWRCTL := c5.PWRCTL &&& not32 hw.CLK_PWRCTL_HIRCEN_Msk } }
  else
    { s4 with clk := c5 }

/-- Lines 548-552 and 559 of `CLK_SetCoreClock`: the PLL frequency requested,
`u32Hclk << 1` after `u32Hclk` was limited to 25 MHz .. 48 MHz. -/
def coreClockRequest (u32Hclk : Nat) : Nat :=
  let h1 := if u32Hclk > FREQ_48MHZ then FREQ_48MHZ else u32Hclk
  let h2 := if h1 < FREQ_25MHZ then FREQ_25MHZ else h1
  (h2 <<< 1) % 2 ^ 32

/-- Lines 555-557 of `CLK_SetCoreClock`: MIRC is enabled and awaited and HCLK
is switched to it. -/
def coreClockPrepare (hw : Hw) (hh : HclkHw) (s : CoreState) : CoreState :=
  let c1 : ClkState := { s.clk with PWRCTL := s.clk.PWRCTL ||| hw.CLK_PWRCTL_MIRCEN_Msk }
  let c2 := (CLK_WaitClockReady hw hw.CLK_STATUS_MIRCSTB_Msk c1).2
  CLK_SetHCLK hw hh hh.CLK_CLKSEL0_HCLKSEL_MIRC (hh.CLK_CLKDIV0_HCLK 1) { s with clk := c2 }

/-- The state after one more read of `CLK->STATUS`. -/
def afterRead (st : ClkState) : ClkState := { st with reads := st.reads + 1 }

/-- Lines 561-579 of `CLK_SetCoreClock`: the PLL is configured from HXT when the
HXT stable flag reads set, from HIRC/4 when the MIRC and the HIRC stable flags
read set, and the function returns 0 otherwise; after the PLL is configured
HCLK is switched to it with divider 2 and half the PLL frequency is returned. -/
def coreClockApply (hw : Hw) (hh : HclkHw) (u32PllclkSet : Nat) (s : CoreState) :
    Option Nat × CoreState :=
  if s.clk.STATUS s.clk.reads &&& hw.CLK_STATUS_HXTSTB_Msk ≠ 0 then
    let r := CLK_EnablePLL hw hw.CLK_PLLCTL_PLLSRC_HXT u32PllclkSet (afterRead s.clk)
    (r.1.map (fun x => x >>> 1),
      CLK_SetHCLK hw hh hh.CLK_CLKSEL0_HCLKSEL_PLL (hh.CLK_CLKDIV0_HCLK 2) { s with clk := r.2 })
  else if s.clk.STATUS (s.clk.reads + 1) &&& hw.CLK_STATUS_MIRCSTB_Msk ≠ 0 then
    if s.clk.STATUS (s.clk.reads + 2) &&& hw.CLK_STATUS_HIRCSTB_Msk ≠ 0 then
      let r := CLK_EnablePLL hw hw.CLK_PLLCTL_PLLSRC_HIRC_DIV4 u32PllclkSet
        (afterRead (afterRead (afterRead s.clk)))
      (r.1.map (fun x => x >>> 1),
        CLK_SetHCLK hw hh hh.CLK_CLKSEL0_HCLKSEL_PLL (hh.CLK_CLKDIV0_HCLK 2)
          { s with clk := r.2 })
    else (some 0, { s with clk := afterRead (afterRead (afterRead s.clk)) })
  else (some 0, { s with clk := afterRead (afterRead s.clk) })

/-- Lines 543-580: `CLK_SetCoreClock`; the first component is the value
returned, the second the state on return. -/
def CLK_SetCoreClock (hw : Hw) (hh : HclkHw) (u32Hclk : Nat) (s : CoreState) :
    Option Nat × CoreState :=
  coreClockApply hw hh (coreClockRequest u32Hclk) (coreClockPrepare hw hh s)

/-- An instance of the header constants of `CLK_SetHCLK`, used to evaluate the
routines on concrete inputs; its `SystemCoreClockUpdate` leaves the core clock
as it is. -/
def sampleHclkHw : HclkHw where
  CLK_CLKSEL0_HCLKSEL_Msk := 0x7
  CLK_CLKSEL0_HCLKSEL_HIRC := 0x7
  CLK_CLKSEL0_HCLKSEL_MIRC := 0x5
  CLK_CLKSEL0_HCLKSEL_PLL := 0x2
  CLK_CLKDIV0_HCLKDIV_Msk := 0xF
  CLK_CLKDIV0_HCLK := fun x => x - 1
  SystemCoreClockUpdate := fun s => s.clk.SystemCoreClock

/-- A state in which the core clock is 3 and every read of `CLK->STATUS` shows
every stable flag. -/
def readyCore : CoreState where
  clk := { PLLCTL := 0, PWRCTL := 0, STATUS := fun _ => 0x35, reads := 0,
           SystemCoreClock := 3, g_CLK_i32ErrCode := 0 }
  CLKSEL0 := 0
  CLKDIV0 := 0

/-! ## LCD driver (`lcd.c`) -/

/-- The constants of the device header that the frame-rate computations of
`lcd.c` use; the header is not part of the sources, so they are parameters. -/
structure LcdHw where
  LCD_PSET_DUTY_Msk : Nat
  LCD_PSET_DUTY_Pos : Nat
  LCD_PSET_TYPE_Msk : Nat

/-- The fields of `S_LCD_CFG_T` that `LCD_Open` reads. -/
structure S_LCD_CFG_T where
  u32SrcFreq : Nat
  u32ComDuty : Nat
  u32BiasLevel : Nat
  u32Framerate : Nat
  u32WaveformType : Nat
  u32IntSrc : Nat
  u32DrivingMode : Nat
  u32VSrc : Nat

/-- Line 171 of `LCD_Open`: the number of COMs `u32ComNum`. -/
def lcdComNum (hw : LcdHw) (cfg : S_LCD_CFG_T) : Nat :=
  (((cfg.u32ComDuty &&& hw.LCD_PSET_DUTY_Msk) >>> hw.LCD_PSET_DUTY_Pos) + 1) % 2 ^ 32

/-- Lines 171-224 of `LCD_Open`: the frame-rate computation. The result is
`(g_LCDFrameRate, d)` where `g_LCDFrameRate` is the value returned and `d` is the
argument `LCD_SET_FREQDIV` is called with, or none when the macro is not called;
there is no result when a divisor is zero. The register writes of lines
137-160 do not enter the computation and are left out. -/
def LCD_Open (hw : LcdHw) (cfg : S_LCD_CFG_T) : Option (Nat × Option Nat) :=
  let u32ComNum := lcdComNum hw cfg
  if cfg.u32WaveformType &&& hw.LCD_PSET_TYPE_Msk = hw.LCD_PSET_TYPE_Msk then
    let u32FreqLCD := (cfg.u32Framerate * u32ComNum) % 2 ^ 32
    if u32FreqLCD = 0 then none
    else
      let u32FreqDiv := cfg.u32SrcFreq / u32FreqLCD
      if u32FreqDiv > 1024 then some (0, none)
      else if (u32ComNum * u32FreqDiv) % 2 ^ 32 = 0 then none
      else some (cfg.u32SrcFreq / ((u32ComNum * u32FreqDiv) % 2 ^ 32), some u32FreqDiv)
  else
    let u32FreqLCD := ((cfg.u32Framerate * u32ComNum) % 2 ^ 32 * 2) % 2 ^ 32
    if u32FreqLCD = 0 then none
    else
      let u32FreqDiv := cfg.u32SrcFreq / u32FreqLCD
      if u32FreqDiv > 1024 then some (0, none)
      else if (u32ComNum * u32FreqDiv) % 2 ^ 32 = 0 then none
      else some (cfg.u32SrcFreq / ((u32ComNum * u32FreqDiv) % 2 ^ 32) / 2, some u32FreqDiv)

/-- Lines 198-214: `LCD_SetPixel`, on the twelve data words `LCD->DATA[0..11]`
given as a function of the index. -/
def LCD_SetPixel (DATA : Nat → Nat) (u32Com u32Seg u32OnFlag : Nat) : Nat → Nat :=
  let seg_num := u32Seg / 4
  let seg_shift := (8 * (u32Seg - 4 * seg_num)) % 2 ^ 32
  if seg_num ≤ 11 then
    if u32OnFlag ≠ 0 then
      Function.update DATA seg_num
        (DATA seg_num ||| (((1 <<< u32Com) % 2 ^ 32) <<< seg_shift) % 2 ^ 32)
    else
      Function.update DATA seg_num
        (DATA seg_num &&& not32 ((((1 <<< u32Com) % 2 ^ 32) <<< seg_shift) % 2 ^ 32))
  else DATA

/-- Lines 253-280: `LCD_EnableBlink` for the register value `PSET` and the stored
frame rate `g_LCDFrameRate`. The result is `(value returned, u32TargetCounts)`,
the second being the argument of `LCD_SET_FRAME_COUNTING_VALUE`; there is no
result when a divisor is zero. -/
def LCD_EnableBlink (hw : LcdHw) (PSET g_LCDFrameRate u32ms : Nat) : Option (Nat × Nat) :=
  if g_LCDFrameRate = 0 then none
  else
    let u32OneCountPeriod :=
      if PSET &&& hw.LCD_PSET_TYPE_Msk = hw.LCD_PSET_TYPE_Msk then (1000 * 2) / g_LCDFrameRate
      else 1000 / g_LCDFrameRate
    if u32OneCountPeriod = 0 then none
    else
      let c0 := u32ms / u32OneCountPeriod
      let c1 := if c0 = 0 then 1 else c0
      let c2 := if c1 > 1024 then 1024 else c1
      some ((u32OneCountPeriod * c2) % 2 ^ 32, c2)

/-- An instance of the LCD header constants, used to evaluate the routines on
concrete inputs: a 3-bit duty field at bit 0 and the type bit above it. -/
def sampleLcdHw : LcdHw where
  LCD_PSET_DUTY_Msk := 0x7
  LCD_PSET_DUTY_Pos := 0
  LCD_PSET_TYPE_Msk := 0x8

/-- A sample configuration: 32768 Hz source, COM duty 1/4, 32 Hz, with the
waveform type given. -/
def sampleCfg (u32WaveformType : Nat) : S_LCD_CFG_T where
  u32SrcFreq := 32768
  u32ComDuty := 3
  u32BiasLevel := 0
  u32Framerate := 32
  u32WaveformType := u32WaveformType
  u32IntSrc := 0
  u32DrivingMode := 0
  u32VSrc := 0

/-! ## Timer PWM driver (`timer_pwm.c`) -/

/-- Lines 51-60 of `TPWM_ConfigOutputFreqAndDuty`: the loop over the prescaler,
run over the list of the values still to visit; the result is the pair
`(u32Prescaler, u32Period)` at the `break`, or none when the loop runs out. -/
def findPrescaler (u32PWMClockFreq u32Frequency : Nat) : List Nat → Option (Nat × Nat)
  | [] => none
  | u32Prescaler :: rest =>
    if (u32PWMClockFreq / u32Prescaler) / u32Frequency > 0x10000 then
      findPrescaler u32PWMClockFreq u32Frequency rest
    else some (u32Prescaler, (u32PWMClockFreq / u32Prescaler) / u32Frequency)

/-- Lines 36-82: `TPWM_ConfigOutputFreqAndDuty` for the PWM clock frequency
`u32PWMClockFreq`. The result is `(value returned, u32Prescaler, u32Period,
compare value)`; there is no result when a divisor is zero. -/
def TPWM_ConfigOutputFreqAndDuty (u32PWMClockFreq u32Frequency u32DutyCycle : Nat) :
    Option (Nat × Nat × Nat × Nat) :=
  if u32Frequency = 0 then none
  else
    let pp := (findPrescaler u32PWMClockFreq u32Frequency (List.range' 1 0x100)).getD
      (0x100, 0x10000)
    if pp.2 = 0 then none
    else some ((u32PWMClockFreq / pp.1) / pp.2, pp.1, pp.2,
      ((u32DutyCycle * pp.2) % 2 ^ 32) / 100)

/-! ## Module clock dividers (`clk.c`, lines 690-712 and 1240-1256) -/

/-- The macros of the device header that decode a module index, and the
addresses of `CLK->CLKDIV0` and `CLK->CLKSEL0`; the header is not part of the
sources, so they are parameters. -/
structure ModHw where
  MODULE_CLKDIV_Msk : Nat → Nat
  MODULE_CLKDIV : Nat → Nat
  MODULE_CLKDIV_Pos : Nat → Nat
  MODULE_CLKSEL_Msk : Nat → Nat
  MODULE_CLKSEL : Nat → Nat
  MODULE_CLKSEL_Pos : Nat → Nat
  MODULE_NoMsk : Nat
  CLKDIV0 : Nat
  CLKSEL0 : Nat

/-- Line 695: the table `au32DivTbl` of `CLK_SetModuleClock`. -/
def au32DivTbl : List Nat := [0x0, 0x4, 0xC, 0x10]

/-- Line 706: the table `au32SelTbl` of `CLK_SetModuleClock`. -/
def au32SelTbl : List Nat := [0x0, 0x4, 0x8, 0xC]

/-- Line 1247: the table `au32DivTbl` of `CLK_GetModuleClockDivider`. -/
def au32DivTblGet : List Nat := [0x0, 0x4, 0x8, 0x10]

/-- Lines 690-712: `CLK_SetModuleClock` on the memory `mem` (address to 32-bit
word); no value when a table index is out of range. -/
def CLK_SetModuleClock (mh : ModHw) (u32ModuleIdx u32ClkSrc u32ClkDiv : Nat)
    (mem : Nat → Nat) : Option (Nat → Nat) :=
  let afterDiv : Option (Nat → Nat) :=
    if mh.MODULE_CLKDIV_Msk u32ModuleIdx ≠ mh.MODULE_NoMsk then
      match au32DivTbl[mh.MODULE_CLKDIV u32ModuleIdx]? with
      | none => none
      | some off =>
        let u32Div := (mh.CLKDIV0 + off) % 2 ^ 32
        some (Function.update mem u32Div
          ((mem u32Div &&& not32 ((mh.MODULE_CLKDIV_Msk u32ModuleIdx <<<
            mh.MODULE_CLKDIV_Pos u32ModuleIdx) % 2 ^ 32)) ||| u32ClkDiv))
    else some mem
  match afterDiv with
  | none => none
  | some mem1 =>
    if mh.MODULE_CLKSEL_Msk u32ModuleIdx ≠ mh.MODULE_NoMsk then
      match au32SelTbl[mh.MODULE_CLKSEL u32ModuleIdx]? with
      | none => none
      | some off =>
        let u32Sel := (mh.CLKSEL0 + off) % 2 ^ 32
        some (Function.update mem1 u32Sel
          ((mem1 u32Sel &&& not32 ((mh.MODULE_CLKSEL_Msk u32ModuleIdx <<<
            mh.MODULE_CLKSEL_Pos u32ModuleIdx) % 2 ^ 32)) ||| u32ClkSrc))
    else some mem1

/-- Lines 1240-1256: `CLK_GetModuleClockDivider`; no value when the table index
is out of range. -/
def CLK_GetModuleClockDivider (mh : ModHw) (u32ModuleIdx : Nat) (mem : Nat → Nat) :
    Option Nat :=
  if mh.MODULE_CLKDIV_Msk u32ModuleIdx ≠ mh.MODULE_NoMsk then
    match au32DivTblGet[mh.MODULE_CLKDIV u32ModuleIdx]? with
    | none => none
    | some off =>
      let u32TmpAddr := (mh.CLKDIV0 + off) % 2 ^ 32
      some ((mem u32TmpAddr &&& ((mh.MODULE_CLKDIV_Msk u32ModuleIdx <<<
        mh.MODULE_CLKDIV_Pos u32ModuleIdx) % 2 ^ 32)) >>> mh.MODULE_CLKDIV_Pos u32ModuleIdx)
  else some 0

/-- An instance of the module-index macros, used to evaluate the routines on
concrete inputs: the divider-register index in bits 18-19, the divider mask in
bits 10-17, its position in bits 5-9, the selector fields above, `CLKSEL0` at
0x40000210 and `CLKDIV0` at 0x40000220. -/
def sampleModHw : ModHw where
  MODULE_CLKDIV_Msk := fun x => (x >>> 10) &&& 0xFF
  MODULE_CLKDIV := fun x => (x >>> 18) &&& 0x3
  MODULE_CLKDIV_Pos := fun x => (x >>> 5) &&& 0x1F
  MODULE_CLKSEL_Msk := fun x => (x >>> 25) &&& 0x7
  MODULE_CLKSEL := fun x => (x >>> 28) &&& 0x3
  MODULE_CLKSEL_Pos := fun x => (x >>> 20) &&& 0x1F
  MODULE_NoMsk := 0
  CLKDIV0 := 0x40000220
  CLKSEL0 := 0x40000210

/-! ## `CLK_PowerDown` (lines 76-111) -/

/-- The constants of the device header that `CLK_PowerDown` uses; the header is
not part of the sources, so they are parameters. -/
structure PdHw where
  CLK_PWRCTL_LIRCEN_Msk : Nat
  CLK_STATUS_LIRCSTB_Msk : Nat
  CLK_PWRCTL_PDEN_Msk : Nat
  SCB_SCR_SLEEPDEEP_Msk : Nat
  SYS_HIRCTRIMCTL_FREQSEL_Msk : Nat
  SYS_MIRCTRIMCTL_FREQSEL_Msk : Nat

/-- The registers `CLK_PowerDown` reads and writes; `STATUS` is the value the
one read of `CLK->STATUS` returns. -/
structure PdState where
  PWRCTL : Nat
  STATUS : Nat
  SCR : Nat
  HIRCTRIMCTL : Nat
  MIRCTRIMCTL : Nat

/-- Lines 76-111: `CLK_PowerDown`. What the registers become while the core
sleeps in `__WFI()` is not fixed by the sources: `wfi` is any function of the
state. The first component is the value returned. -/
def CLK_PowerDown (ph : PdHw) (wfi : PdState → PdState) (s : PdState) : Nat × PdState :=
  if s.PWRCTL &&& ph.CLK_PWRCTL_LIRCEN_Msk = 0 ∧ s.STATUS &&& ph.CLK_STATUS_LIRCSTB_Msk ≠ 0 then
    (0, s)
  else
    let s1 : PdState := { s with SCR := s.SCR ||| ph.SCB_SCR_SLEEPDEEP_Msk }
    let s2 : PdState := { s1 with PWRCTL := s1.PWRCTL ||| ph.CLK_PWRCTL_PDEN_Msk }
    let u32HIRCTRIMCTL := s2.HIRCTRIMCTL
    let u32MIRCTRIMCTL := s2.MIRCTRIMCTL
    let s3 : PdState :=
      { s2 with HIRCTRIMCTL := s2.HIRCTRIMCTL &&& not32 ph.SYS_HIRCTRIMCTL_FREQSEL_Msk }
    let s4 : PdState :=
      { s3 with MIRCTRIMCTL := s3.MIRCTRIMCTL &&& not32 ph.SYS_MIRCTRIMCTL_FREQSEL_Msk }
    let s5 := wfi s4
    let s6 : PdState := { s5 with SCR := s5.SCR &&& not32 ph.SCB_SCR_SLEEPDEEP_Msk }
    let s7 : PdState := { s6 with HIRCTRIMCTL := u32HIRCTRIMCTL }
    let s8 : PdState := { s7 with MIRCTRIMCTL := u32MIRCTRIMCTL }
    (1, s8)

/-- An instance of the header constants of `CLK_PowerDown`, used to evaluate
the routine on concrete inputs. -/
def samplePdHw : PdHw where
  CLK_PWRCTL_LIRCEN_Msk := 0x8
  CLK_STATUS_LIRCSTB_Msk := 0x8
  CLK_PWRCTL_PDEN_Msk := 0x80
  SCB_SCR_SLEEPDEEP_Msk := 0x4
  SYS_HIRCTRIMCTL_FREQSEL_Msk := 0x3
  SYS_MIRCTRIMCTL_FREQSEL_Msk := 0x3

/-- A state with LIRC enabled and stable and both trim controls active. -/
def samplePdState : PdState where
  PWRCTL := 0x8
  STATUS := 0x8
  SCR := 0
  HIRCTRIMCTL := 0x1
  MIRCTRIMCTL := 0x2

/-! ## The iteration order of the search -/

/-- The candidates `(u32NO, u32NR, u32NF)` of one run of the loop over `u32NR`,
in the order in which the loops visit them. -/
def orderNR (u32NO : Nat) : List Nat → List (Nat × Nat × Nat)
  | [] => []
  | u32NR :: rest =>
    (List.range' 8 18).map (fun u32NF => (u32NO, u32NR, u32NF)) ++ orderNR u32NO rest

/-- The candidates of the whole search in iteration order: index 0, 1, 3 (index
2 is skipped), then `u32NR` from 1 to 6, then `u32NF` from 8 to 25. -/
def searchOrder : List (Nat × Nat × Nat) :=
  orderNR 0 (List.range' 1 6) ++ (orderNR 1 (List.range' 1 6) ++ orderNR 3 (List.range' 1 6))

/-- One visit of the loop body (lines 407-441) without the `break`: the
candidate replaces the best one when it passes both range checks and its
deviation is strictly smaller. -/
def consider (src f : Nat) (b : Best) (c : Nat × Nat × Nat) : Best :=
  if passes src c.2.1 c.2.2 ∧ (candidate src f c.1 c.2.1 c.2.2).u32Min < b.u32Min then
    candidate src f c.1 c.2.1 c.2.2
  else b

/-! ## The search keeps a minimum -/

theorem loopNF_spec (t p o r : Nat) (l : List Nat) (b : Best) :
    (loopNF t p o r l b).u32Min ≤ b.u32Min ∧
    (loopNF t p o r l b = b ∨ ∃ F ∈ l,
      (FREQ_64MHZ ≤ (t * F) % 2 ^ 32 ∧ (t * F) % 2 ^ 32 ≤ FREQ_100MHZ) ∧
      loopNF t p o r l b = ⟨u32Tmp3 ((t * F) % 2 ^ 32) p o, r, F, o⟩) ∧
    ∀ F ∈ l, (FREQ_64MHZ ≤ (t * F) % 2 ^ 32 ∧ (t * F) % 2 ^ 32 ≤ FREQ_100MHZ) →
      (loopNF t p o r l b).u32Min ≤ u32Tmp3 ((t * F) % 2 ^ 32) p o := by
  induction l generalizing b with
  | nil => simp [loopNF]
  | cons F rest ih =>
    simp only [loopNF]
    split_ifs with h1 h2 h3
    · refine ⟨le_of_lt h2, Or.inr ⟨F, by simp, h1, rfl⟩, fun G _ _ => ?_⟩
      show u32Tmp3 ((t * F) % 2 ^ 32) p o ≤ _
      rw [h3]
      exact Nat.zero_le _
    · obtain ⟨ha, hb, hc⟩ := ih ⟨u32Tmp3 ((t * F) % 2 ^ 32) p o, r, F, o⟩
      refine ⟨le_trans ha (le_of_lt h2), ?_, ?_⟩
      · rcases hb with hb | ⟨G, hG, hok, hr⟩
        · exact Or.inr ⟨F, by simp, h1, hb⟩
        · exact Or.inr ⟨G, by simp [hG], hok, hr⟩
      · intro G hG hok
        rcases List.mem_cons.mp hG with rfl | hG
        · exact ha
        · exact hc G hG hok
    · obtain ⟨ha, hb, hc⟩ := ih b
      refine ⟨ha, ?_, ?_⟩
      · rcases hb with hb | ⟨G, hG, hok, hr⟩
        · exact Or.inl hb
        · exact Or.inr ⟨G, by simp [hG], hok, hr⟩
      · intro G hG hok
        rcases List.mem_cons.mp hG with rfl | hG
        · exact le_trans ha (not_lt.mp h2)
        · exact hc G hG hok
    · obtain ⟨ha, hb, hc⟩ := ih b
      refine ⟨ha, ?_, ?_⟩
      · rcases hb with hb | ⟨G, hG, hok, hr⟩
        · exact Or.inl hb
        · exact Or.inr ⟨G, by simp [hG], hok, hr⟩
      · intro G hG hok
        rcases List.mem_cons.mp hG with rfl | hG
        · exact absurd hok h1
        · exact hc G hG hok

theorem loopNR_spec (src p o : Nat) (l : List Nat) (b : Best) :
    (loopNR src p o l b).u32Min ≤ b.u32Min ∧
    (loopNR src p o l b = b ∨ ∃ R ∈ l, ∃ F ∈ List.range' 8 18, passes src R F ∧
      loopNR src p o l b = ⟨u32Tmp3 ((src / R * F) % 2 ^ 32) p o, R, F, o⟩) ∧
    ∀ R ∈ l, ∀ F ∈ List.range' 8 18, passes src R F →
      (loopNR src p o l b).u32Min ≤ u32Tmp3 ((src / R * F) % 2 ^ 32) p o := by
  induction l generalizing b with
  | nil => simp [loopNR]
  | cons R rest ih =>
    simp only [loopNR]
    split_ifs with h1
    · obtain ⟨fa, fb, fc⟩ := loopNF_spec (src / R) p o R (List.range' 8 18) b
      obtain ⟨ha, hb, hc⟩ := ih (loopNF (src / R) p o R (List.range' 8 18) b)
      refine ⟨le_trans ha fa, ?_, ?_⟩
      · rcases hb with hb | ⟨S, hS, G, hG, hok, hr⟩
        · rcases fb with fb | ⟨G, hG, hok, hr⟩
          · exact Or.inl (hb.trans fb)
          · exact Or.inr ⟨R, by simp, G, hG, ⟨h1, hok⟩, hb.trans hr⟩
        · exact Or.inr ⟨S, by simp [hS], G, hG, hok, hr⟩
      · intro S hS G hG hok
        rcases List.mem_cons.mp hS with rfl | hS
        · exact le_trans ha (fc G hG hok.2)
        · exact hc S hS G hG hok
    · obtain ⟨ha, hb, hc⟩ := ih b
      refine ⟨ha, ?_, ?_⟩
      · rcases hb with hb | ⟨S, hS, G, hG, hok, hr⟩
        · exact Or.inl hb
        · exact Or.inr ⟨S, by simp [hS], G, hG, hok, hr⟩
      · intro S hS G hG hok
        rcases List.mem_cons.mp hS with rfl | hS
        · exact absurd hok.1 h1
        · exact hc S hS G hG hok

theorem pllSearch_unfold (src f : Nat) :
    pllSearch src f =
      if (loopNR src (scaleTarget f f 0) 0 (List.range' 1 6) Best.init).u32Min = 0 then
        loopNR src (scaleTarget f f 0) 0 (List.range' 1 6) Best.init
      else if (loopNR src (scaleTarget f f 1) 1 (List.range' 1 6)
          (loopNR src (scaleTarget f f 0) 0 (List.range' 1 6) Best.init)).u32Min = 0 then
        loopNR src (scaleTarget f f 1) 1 (List.range' 1 6)
          (loopNR src (scaleTarget f f 0) 0 (List.range' 1 6) Best.init)
      else
        loopNR src (scaleTarget f f 3) 3 (List.range' 1 6)
          (loopNR src (scaleTarget f f 1) 1 (List.range' 1 6)
            (loopNR src (scaleTarget f f 0) 0 (List.range' 1 6) Best.init)) := by
  have h0 : Best.init.u32Min ≠ 0 := by decide
  have e0 : scaleTarget f f 0 = f := by simp [scaleTarget]
  have e3 : ∀ p, scaleTarget f p 3 = scaleTarget f f 3 := fun p => by simp [scaleTarget]
  have e1 : ∀ p, scaleTarget f p 1 = scaleTarget f f 1 := fun p => by simp [scaleTarget]
  generalize hL : List.range' 1 6 = L
  unfold pllSearch
  simp only [loopNO, hL, if_neg h0, e0, e1 f, e3]
  split_ifs <;> first | rfl | omega

/-- The result of the search is either the initial record or the record of a
candidate that passes both range checks, and its deviation is at most that of
every candidate that passes them. -/
theorem pllSearch_spec (src f : Nat) :
    (pllSearch src f = Best.init ∨
      ∃ O ∈ [0, 1, 3], ∃ R ∈ List.range' 1 6, ∃ F ∈ List.range' 8 18,
        passes src R F ∧ pllSearch src f = candidate src f O R F) ∧
    ∀ O ∈ [0, 1, 3], ∀ R ∈ List.range' 1 6, ∀ F ∈ List.range' 8 18, passes src R F →
      (pllSearch src f).u32Min ≤ (candidate src f O R F).u32Min := by
  rw [pllSearch_unfold]
  obtain ⟨_, b1, c1⟩ := loopNR_spec src (scaleTarget f f 0) 0 (List.range' 1 6) Best.init
  generalize loopNR src (scaleTarget f f 0) 0 (List.range' 1 6) Best.init = r1 at *
  obtain ⟨a2, b2, c2⟩ := loopNR_spec src (scaleTarget f f 1) 1 (List.range' 1 6) r1
  generalize loopNR src (scaleTarget f f 1) 1 (List.range' 1 6) r1 = r2 at *
  obtain ⟨a3, b3, c3⟩ := loopNR_spec src (scaleTarget f f 3) 3 (List.range' 1 6) r2
  generalize loopNR src (scaleTarget f f 3) 3 (List.range' 1 6) r2 = r3 at *
  have A1 : r1 = Best.init ∨
      ∃ O ∈ [0, 1, 3], ∃ R ∈ List.range' 1 6, ∃ F ∈ List.range' 8 18,
        passes src R F ∧ r1 = candidate src f O R F := by
    rcases b1 with h | ⟨R, hR, F, hF, hp, hr⟩
    · exact Or.inl h
    · exact Or.inr ⟨0, by simp, R, hR, F, hF, hp, hr⟩
  have A2 : r2 = Best.init ∨
      ∃ O ∈ [0, 1, 3], ∃ R ∈ List.range' 1 6, ∃ F ∈ List.range' 8 18,
        passes src R F ∧ r2 = candidate src f O R F := by
    rcases b2 with h | ⟨R, hR, F, hF, hp, hr⟩
    · rw [h]; exact A1
    · exact Or.inr ⟨1, by simp, R, hR, F, hF, hp, hr⟩
  have A3 : r3 = Best.init ∨
      ∃ O ∈ [0, 1, 3], ∃ R ∈ List.range' 1 6, ∃ F ∈ List.range' 8 18,
        passes src R F ∧ r3 = candidate src f O R F := by
    rcases b3 with h | ⟨R, hR, F, hF, hp, hr⟩
    · rw [h]; exact A2
    · exact Or.inr ⟨3, by simp, R, hR, F, hF, hp, hr⟩
  split_ifs with h1 h2
  · exact ⟨A1, fun O _ R _ F _ _ => by rw [h1]; exact Nat.zero_le _⟩
  · exact ⟨A2, fun O _ R _ F _ _ => by rw [h2]; exact Nat.zero_le _⟩
  · refine ⟨A3, fun O hO R hR F hF hp => ?_⟩
    simp only [List.mem_cons, List.mem_singleton, List.not_mem_nil, or_false] at hO
    rcases hO with rfl | rfl | rfl
    · exact le_trans a3 (le_trans a2 (c1 R hR F hF hp))
    · exact le_trans a3 (c2 R hR F hF hp)
    · exact c3 R hR F hF hp

/-! ## The polling loop -/

theorem waitLoop_frame (hw : Hw) (mask n : Nat) (st : ClkState) :
    (waitLoop hw mask n st).2.PLLCTL = st.PLLCTL ∧
    (waitLoop hw mask n st).2.PWRCTL = st.PWRCTL ∧
    (waitLoop hw mask n st).2.STATUS = st.STATUS ∧
    (waitLoop hw mask n st).2.SystemCoreClock = st.SystemCoreClock := by
  induction n generalizing st with
  | zero =>
    unfold waitLoop
    split_ifs <;> exact ⟨rfl, rfl, rfl, rfl⟩
  | succ n ih =>
    unfold waitLoop
    split_ifs
    · exact ⟨rfl, rfl, rfl, rfl⟩
    · exact ih _

theorem waitLoop_timeout (hw : Hw) (mask n : Nat) (st : ClkState)
    (hz : ∀ i ≤ n, st.STATUS (st.reads + i) &&& mask = 0) :
    (waitLoop hw mask n st).1 = 0 ∧
    (waitLoop hw mask n st).2.g_CLK_i32ErrCode = hw.CLK_TIMEOUT_ERR ∧
    (waitLoop hw mask n st).2.reads = st.reads + n + 1 := by
  induction n generalizing st with
  | zero =>
    have h0 : ¬ (st.STATUS st.reads &&& mask ≠ 0) := by
      simpa using hz 0 (Nat.le_refl 0)
    unfold waitLoop
    rw [if_neg h0]
    exact ⟨rfl, rfl, rfl⟩
  | succ n ih =>
    have h0 : ¬ (st.STATUS st.reads &&& mask ≠ 0) := by
      simpa using hz 0 (Nat.zero_le _)
    unfold waitLoop
    rw [if_neg h0]
    obtain ⟨a, b, c⟩ := ih { st with reads := st.reads + 1 } (fun i hi => by
      have := hz (i + 1) (by omega)
      rwa [show st.reads + (i + 1) = st.reads + 1 + i by omega] at this)
    refine ⟨a, b, ?_⟩
    rw [c]
    show st.reads + 1 + n + 1 = st.reads + (n + 1) + 1
    omega

theorem waitLoop_ready (hw : Hw) (mask k n : Nat) (st : ClkState) (hk : k ≤ n)
    (hz : ∀ i < k, st.STATUS (st.reads + i) &&& mask = 0)
    (h1 : st.STATUS (st.reads + k) &&& mask ≠ 0) :
    (waitLoop hw mask n st).1 = 1 ∧
    (waitLoop hw mask n st).2.g_CLK_i32ErrCode = st.g_CLK_i32ErrCode ∧
    (waitLoop hw mask n st).2.reads = st.reads + k + 1 := by
  induction k generalizing n st with
  | zero =>
    have h : st.STATUS st.reads &&& mask ≠ 0 := by simpa using h1
    cases n with
    | zero => unfold waitLoop; rw [if_pos h]; exact ⟨rfl, rfl, rfl⟩
    | succ n => unfold waitLoop; rw [if_pos h]; exact ⟨rfl, rfl, rfl⟩
  | succ k ih =>
    have h0 : ¬ (st.STATUS st.reads &&& mask ≠ 0) := by
      simpa using hz 0 (Nat.succ_pos k)
    cases n with
    | zero => omega
    | succ n =>
      unfold waitLoop
      rw [if_neg h0]
      obtain ⟨a, b, c⟩ := ih n { st with reads := st.reads + 1 } (by omega)
        (fun i hi => by
          have := hz (i + 1) (by omega)
          rwa [show st.reads + (i + 1) = st.reads + 1 + i by omega] at this)
        (by rwa [show st.reads + (k + 1) = st.reads + 1 + k by omega] at h1)
      refine ⟨a, b, ?_⟩
      rw [c]
      show st.reads + 1 + k + 1 = st.reads + (k + 1) + 1
      omega

theorem dec32_pos (n : Nat) (h1 : 1 ≤ n) (h2 : n < 2 ^ 32) : dec32 n = n - 1 := by
  unfold dec32
  rw [Nat.mod_eq_of_lt h2, if_neg (by omega)]

/-! ## Nominal sources -/

theorem natCast_absdiff (a b : Nat) :
    |(a : Int) - (b : Int)| = ((if a > b then a - b else b - a : Nat) : Int) := by
  split_ifs with h
  · rw [abs_of_nonneg (by omega)]; omega
  · rw [abs_of_nonpos (by omega)]; omega

theorem nominal_candidate (src f O R F : Nat) (hsrc : src = 12000000 ∨ src = 4000000)
    (hO : O ∈ [0, 1, 3]) (hR1 : 1 ≤ R) (hR6 : R ≤ 6) (hF25 : F ≤ 25)
    (hp : passes src R F) (hhi : f ≤ 100000000) :
    pllReturn src (candidate src f O R F) = some (src / R * F / au8NoTbl.getD O 0) ∧
    ((candidate src f O R F).u32Min : Int) =
      |((src / R * F / au8NoTbl.getD O 0 : Nat) : Int) - (f : Int)| := by
  simp only [List.mem_cons, List.mem_singleton, List.not_mem_nil, or_false] at hO
  rw [natCast_absdiff]
  simp only [passes, FREQ_4MHZ, FREQ_8MHZ, FREQ_64MHZ, FREQ_100MHZ] at hp
  rcases hsrc with rfl | rfl <;> rcases hO with rfl | rfl | rfl <;> interval_cases R <;>
    simp only [pllReturn, candidate, u32Tmp3, scaleTarget, au8NoTbl, List.getD_cons_zero,
      List.getD_cons_succ, Nat.shiftRight_eq_div_pow, Nat.shiftLeft_eq] at hp ⊢ <;>
    norm_num at hp ⊢ <;>
    (try omega)


theorem selectSource_src (hw : Hw) (sel : Nat) (st : ClkState) :
    (selectSource hw sel st).2.1 = 12000000 ∨ (selectSource hw sel st).2.1 = 4000000 := by
  unfold selectSource
  split_ifs
  · exact Or.inl rfl
  · exact Or.inl rfl
  · exact Or.inr rfl

theorem candidate_min_lt (src f O R F : Nat) (hf : f < 2 ^ 32) (hp : passes src R F) :
    (candidate src f O R F).u32Min < 2 ^ 32 - 1 := by
  simp only [passes, FREQ_4MHZ, FREQ_8MHZ, FREQ_64MHZ, FREQ_100MHZ] at hp
  simp only [candidate, u32Tmp3, scaleTarget, Nat.shiftRight_eq_div_pow, Nat.shiftLeft_eq]
  have h4 := Nat.mod_lt (f * 2 ^ 2) (show 2 ^ 32 > 0 by norm_num)
  have h2 := Nat.mod_lt (f * 2 ^ 1) (show 2 ^ 32 > 0 by norm_num)
  split_ifs <;> omega

theorem pllSearch_nominal (src f : Nat) (hf : f < 2 ^ 32)
    (hsrc : src = 12000000 ∨ src = 4000000) :
    ∃ O ∈ [0, 1, 3], ∃ R ∈ List.range' 1 6, ∃ F ∈ List.range' 8 18,
      passes src R F ∧ pllSearch src f = candidate src f O R F := by
  obtain ⟨hA, hB⟩ := pllSearch_spec src f
  rcases hA with h | h
  · exfalso
    rcases hsrc with rfl | rfl
    · have hp : passes 12000000 3 16 := by decide
      have := hB 0 (by simp) 3 (by simp) 16 (by simp) hp
      have := candidate_min_lt 12000000 f 0 3 16 hf hp
      rw [h] at *
      simp [Best.init] at *
      omega
    · have hp : passes 4000000 1 16 := by decide
      have := hB 0 (by simp) 1 (by simp) 16 (by simp) hp
      have := candidate_min_lt 4000000 f 0 1 16 hf hp
      rw [h] at *
      simp [Best.init] at *
      omega
  · exact h


theorem admissible_iff (src R F : Nat) :
    Admissible src R F ↔ R ∈ List.range' 1 6 ∧ F ∈ List.range' 8 18 ∧ passes src R F := by
  simp only [Admissible, passes, FREQ_4MHZ, FREQ_8MHZ, FREQ_64MHZ, FREQ_100MHZ,
    List.mem_range'_1]
  constructor
  · rintro ⟨⟨h1, h2⟩, ⟨h3, h4⟩, ⟨h5, h6⟩, h7, h8⟩
    have : src / R * F % 2 ^ 32 = src / R * F := Nat.mod_eq_of_lt (by omega)
    rw [this]
    omega
  · rintro ⟨⟨h1, h2⟩, ⟨h5, h6⟩, ⟨h3, h4⟩, h7, h8⟩
    have hb : src / R * F ≤ 8000000 * 25 := Nat.mul_le_mul h4 (by omega)
    have : src / R * F % 2 ^ 32 = src / R * F := Nat.mod_eq_of_lt (by omega)
    rw [this] at h7 h8
    omega

theorem CLK_EnablePLL_inRange_ret (hw : Hw) (sel f : Nat) (st : ClkState)
    (hlo : 16000000 ≤ f) (hhi : f ≤ 100000000) :
    (CLK_EnablePLL hw sel f st).1 =
      pllReturn (selectSource hw sel (CLK_DisablePLL hw st)).2.1
        (pllSearch (selectSource hw sel (CLK_DisablePLL hw st)).2.1 f) := by
  have h : f ≤ FREQ_100MHZ ∧ f ≥ FREQ_16MHZ := ⟨hhi, hlo⟩
  simp only [CLK_EnablePLL, applyPll, if_pos h]

/-- C1. For a request in [16 MHz, 100 MHz] and any of the three sources
(each at its nominal frequency `src`), `CLK_EnablePLL` returns the output of an
admissible setting `(O, R, F)`, and no admissible setting with output-divider
index 0, 1 or 3 (divisor 1, 2, 4) has an output closer to the request. -/
theorem CLK_EnablePLL_closest (hw : Hw) (sel f src : Nat) (st : ClkState)
    (hsrc : (selectSource hw sel (CLK_DisablePLL hw st)).2.1 = src)
    (hlo : 16000000 ≤ f) (hhi : f ≤ 100000000) :
    ∃ r O R F, (CLK_EnablePLL hw sel f st).1 = some r ∧
      O ∈ [0, 1, 3] ∧ Admissible src R F ∧ r = src / R * F / au8NoTbl.getD O 0 ∧
      ∀ O' ∈ [0, 1, 3], ∀ R' F', Admissible src R' F' →
        |(r : Int) - (f : Int)| ≤
          |((src / R' * F' / au8NoTbl.getD O' 0 : Nat) : Int) - (f : Int)| := by
  have hnom : src = 12000000 ∨ src = 4000000 := hsrc ▸ selectSource_src hw sel _
  rw [CLK_EnablePLL_inRange_ret hw sel f st hlo hhi, hsrc]
  obtain ⟨O, hO, R, hR, F, hF, hp, hb⟩ := pllSearch_nominal src f (by omega) hnom
  have hadm : Admissible src R F := (admissible_iff src R F).mpr ⟨hR, hF, hp⟩
  obtain ⟨hret, hdev⟩ := nominal_candidate src f O R F hnom hO hadm.1.1 hadm.1.2
    hadm.2.2.1.2 hp hhi
  refine ⟨src / R * F / au8NoTbl.getD O 0, O, R, F, ?_, hO, hadm, rfl, ?_⟩
  · rw [hb, hret]
  · intro O' hO' R' F' hadm'
    obtain ⟨hR', hF', hp'⟩ := (admissible_iff src R' F').mp hadm'
    obtain ⟨_, hdev'⟩ := nominal_candidate src f O' R' F' hnom hO' hadm'.1.1 hadm'.1.2
      hadm'.2.2.1.2 hp' hhi
    rw [← hdev, ← hdev', ← hb]
    exact_mod_cast (pllSearch_spec src f).2 O' hO' R' hR' F' hF' hp'

theorem CLK_EnablePLL_closest_witness :
    ((selectSource sampleHw 0 (CLK_DisablePLL sampleHw lateState)).2.1 = 12000000 ∧
      16000000 ≤ 57000000 ∧ 57000000 ≤ 100000000) ∧
    ∃ r O R F, (CLK_EnablePLL sampleHw 0 57000000 lateState).1 = some r ∧
      O ∈ [0, 1, 3] ∧ Admissible 12000000 R F ∧ r = 12000000 / R * F / au8NoTbl.getD O 0 ∧
      ∀ O' ∈ [0, 1, 3], ∀ R' F', Admissible 12000000 R' F' →
        |(r : Int) - (57000000 : Int)| ≤
          |((12000000 / R' * F' / au8NoTbl.getD O' 0 : Nat) : Int) - (57000000 : Int)| :=
  ⟨⟨rfl, by decide, by decide⟩,
    CLK_EnablePLL_closest sampleHw 0 57000000 12000000 lateState rfl (by decide) (by decide)⟩

/-- C2. For an in-range request and any source frequency `src` for which the
search finds a candidate (its result is not the initial record), the winning
pair satisfies 1 ≤ R ≤ 6, 8 ≤ F ≤ 25, 4 MHz ≤ src/R ≤ 8 MHz and
64 MHz ≤ (src/R)*F ≤ 100 MHz. -/
theorem pllSearch_winner_admissible (src f : Nat)
    (hlo : 16000000 ≤ f) (hhi : f ≤ 100000000)
    (hfound : pllSearch src f ≠ Best.init) :
    (1 ≤ (pllSearch src f).u32MinNR ∧ (pllSearch src f).u32MinNR ≤ 6) ∧
    (8 ≤ (pllSearch src f).u32MinNF ∧ (pllSearch src f).u32MinNF ≤ 25) ∧
    (4000000 ≤ src / (pllSearch src f).u32MinNR ∧
      src / (pllSearch src f).u32MinNR ≤ 8000000) ∧
    (64000000 ≤ src / (pllSearch src f).u32MinNR * (pllSearch src f).u32MinNF ∧
      src / (pllSearch src f).u32MinNR * (pllSearch src f).u32MinNF ≤ 100000000) := by
  have _hf : FREQ_16MHZ ≤ f ∧ f ≤ FREQ_100MHZ := ⟨hlo, hhi⟩
  rcases (pllSearch_spec src f).1 with h | ⟨O, _, R, hR, F, hF, hp, hb⟩
  · exact absurd h hfound
  · obtain ⟨h1, h2, h3, h4⟩ := (admissible_iff src R F).mpr ⟨hR, hF, hp⟩
    rw [hb]
    exact ⟨h1, h3, h2, h4⟩

theorem pllSearch_winner_admissible_witness :
    (16000000 ≤ 48000000 ∧ 48000000 ≤ 100000000 ∧
      pllSearch 12000000 48000000 ≠ Best.init) ∧
    (1 ≤ (pllSearch 12000000 48000000).u32MinNR ∧
      (pllSearch 12000000 48000000).u32MinNR ≤ 6) ∧
    (8 ≤ (pllSearch 12000000 48000000).u32MinNF ∧
      (pllSearch 12000000 48000000).u32MinNF ≤ 25) ∧
    (4000000 ≤ 12000000 / (pllSearch 12000000 48000000).u32MinNR ∧
      12000000 / (pllSearch 12000000 48000000).u32MinNR ≤ 8000000) ∧
    (64000000 ≤ 12000000 / (pllSearch 12000000 48000000).u32MinNR *
        (pllSearch 12000000 48000000).u32MinNF ∧
      12000000 / (pllSearch 12000000 48000000).u32MinNR *
        (pllSearch 12000000 48000000).u32MinNF ≤ 100000000) :=
  ⟨⟨by decide, by decide, by decide⟩,
    pllSearch_winner_admissible 12000000 48000000 (by decide) (by decide) (by decide)⟩

theorem CLK_WaitClockReady_frame (hw : Hw) (mask : Nat) (st : ClkState) :
    (CLK_WaitClockReady hw mask st).2.PLLCTL = st.PLLCTL ∧
    (CLK_WaitClockReady hw mask st).2.PWRCTL = st.PWRCTL ∧
    (CLK_WaitClockReady hw mask st).2.STATUS = st.STATUS ∧
    (CLK_WaitClockReady hw mask st).2.SystemCoreClock = st.SystemCoreClock := by
  unfold CLK_WaitClockReady
  exact waitLoop_frame hw mask _ _

theorem applyPll_outOfRange (hw : Hw) (sel clk src f : Nat) (st : ClkState)
    (hout : f < 16000000 ∨ 100000000 < f) :
    applyPll hw sel clk src f st =
      (CLK_GetPLLClockFreq hw (CLK_WaitClockReady hw hw.CLK_STATUS_PLLSTB_Msk
          { st with PLLCTL := presetWord hw sel f }).2,
        (CLK_WaitClockReady hw hw.CLK_STATUS_PLLSTB_Msk
          { st with PLLCTL := presetWord hw sel f }).2) := by
  have h : ¬ (f ≤ FREQ_100MHZ ∧ f ≥ FREQ_16MHZ) := by
    simp only [FREQ_100MHZ, FREQ_16MHZ]; omega
  unfold applyPll
  rw [if_neg h]

theorem applyPll_inRange (hw : Hw) (sel clk src f : Nat) (st : ClkState)
    (hlo : 16000000 ≤ f) (hhi : f ≤ 100000000) :
    applyPll hw sel clk src f st =
      (pllReturn src (pllSearch src f),
        (CLK_WaitClockReady hw hw.CLK_STATUS_PLLSTB_Msk
          { st with PLLCTL := pllWord clk (pllSearch src f) }).2) := by
  have h : f ≤ FREQ_100MHZ ∧ f ≥ FREQ_16MHZ := ⟨hhi, hlo⟩
  unfold applyPll
  rw [if_pos h]

theorem CLK_EnablePLL_eq (hw : Hw) (sel f : Nat) (st : ClkState) :
    CLK_EnablePLL hw sel f st = applyPll hw sel
      (selectSource hw sel (CLK_DisablePLL hw st)).1
      (selectSource hw sel (CLK_DisablePLL hw st)).2.1 f
      (selectSource hw sel (CLK_DisablePLL hw st)).2.2 := rfl

/-- C3. For a request below 16 MHz or above 100 MHz, `CLK_EnablePLL` leaves in
`PLLCTL` the preset word chosen by the source selector and by `f < 16 MHz`
alone (the 16 MHz preset of the source below 16 MHz, its 100 MHz preset above
100 MHz; HXT, HIRC_DIV4, otherwise MIRC), and returns `CLK_GetPLLClockFreq`
evaluated on the state that holds that word. -/
theorem CLK_EnablePLL_preset (hw : Hw) (sel f : Nat) (st : ClkState)
    (hout : f < 16000000 ∨ 100000000 < f) :
    (f < 16000000 → (CLK_EnablePLL hw sel f st).2.PLLCTL =
      if sel = hw.CLK_PLLCTL_PLLSRC_HXT then hw.CLK_PLLCTL_16MHz_HXT
      else if sel = hw.CLK_PLLCTL_PLLSRC_HIRC_DIV4 then hw.CLK_PLLCTL_16MHz_HIRC_DIV4
      else hw.CLK_PLLCTL_16MHz_MIRC) ∧
    (100000000 < f → (CLK_EnablePLL hw sel f st).2.PLLCTL =
      if sel = hw.CLK_PLLCTL_PLLSRC_HXT then hw.CLK_PLLCTL_100MHz_HXT
      else if sel = hw.CLK_PLLCTL_PLLSRC_HIRC_DIV4 then hw.CLK_PLLCTL_100MHz_HIRC_DIV4
      else hw.CLK_PLLCTL_100MHz_MIRC) ∧
    (CLK_EnablePLL hw sel f st).1 = CLK_GetPLLClockFreq hw (CLK_EnablePLL hw sel f st).2 := by
  rw [CLK_EnablePLL_eq, applyPll_outOfRange hw sel _ _ f _ hout]
  refine ⟨fun h1 => ?_, fun h2 => ?_, rfl⟩
  · rw [(CLK_WaitClockReady_frame hw hw.CLK_STATUS_PLLSTB_Msk _).1]
    show presetWord hw sel f = _
    unfold presetWord
    rw [if_pos (show f < FREQ_16MHZ from h1)]
  · rw [(CLK_WaitClockReady_frame hw hw.CLK_STATUS_PLLSTB_Msk _).1]
    show presetWord hw sel f = _
    unfold presetWord
    rw [if_neg (show ¬ f < FREQ_16MHZ by simp only [FREQ_16MHZ]; omega)]

theorem CLK_EnablePLL_preset_witness :
    (5 < 16000000 ∨ 100000000 < 5) ∧
    (CLK_EnablePLL sampleHw 0 5 lateState).2.PLLCTL = 0xC610 ∧
    (CLK_EnablePLL sampleHw 0 5 lateState).1 =
      CLK_GetPLLClockFreq sampleHw (CLK_EnablePLL sampleHw 0 5 lateState).2 :=
  ⟨by decide, (CLK_EnablePLL_preset sampleHw 0 5 lateState (by decide)).1 (by decide),
    (CLK_EnablePLL_preset sampleHw 0 5 lateState (by decide)).2.2⟩

theorem waitClockReady_cases (hw : Hw) (mask : Nat) (st : ClkState)
    (hN1 : 1 ≤ st.SystemCoreClock) (hN : st.SystemCoreClock < 2 ^ 32) :
    ((∀ i < st.SystemCoreClock, st.STATUS (st.reads + i) &&& mask = 0) →
      (CLK_WaitClockReady hw mask st).1 = 0 ∧
      (CLK_WaitClockReady hw mask st).2.g_CLK_i32ErrCode = hw.CLK_TIMEOUT_ERR) ∧
    ((∃ i < st.SystemCoreClock, st.STATUS (st.reads + i) &&& mask ≠ 0) →
      (CLK_WaitClockReady hw mask st).1 = 1 ∧
      (CLK_WaitClockReady hw mask st).2.g_CLK_i32ErrCode = 0) := by
  unfold CLK_WaitClockReady
  rw [dec32_pos _ hN1 hN]
  constructor
  · intro hz
    obtain ⟨a, b, _⟩ := waitLoop_timeout hw mask (st.SystemCoreClock - 1)
      { st with g_CLK_i32ErrCode := 0 } (fun i hi => hz i (by omega))
    exact ⟨a, b⟩
  · intro hex
    classical
    have hk := Nat.find_spec hex
    obtain ⟨a, b, _⟩ := waitLoop_ready hw mask (Nat.find hex) (st.SystemCoreClock - 1)
      { st with g_CLK_i32ErrCode := 0 } (by omega)
      (fun i hi => by
        have := Nat.find_min hex hi
        have hlt : i < st.SystemCoreClock := lt_trans hi hk.1
        simpa [hlt] using this)
      hk.2
    exact ⟨a, b⟩

/-- C4. `CLK_WaitClockReady(mask)` started with `SystemCoreClock = N`, N ≥ 1:
if none of the first N reads of `STATUS` has a bit of `mask` set it returns 0
and leaves `CLK_TIMEOUT_ERR` in `g_CLK_i32ErrCode`; if one of them has, it
returns 1 and leaves 0 there, whatever the error code was before. -/
theorem CLK_WaitClockReady_result (hw : Hw) (mask : Nat) (st : ClkState)
    (hN1 : 1 ≤ st.SystemCoreClock) (hN : st.SystemCoreClock < 2 ^ 32) :
    ((∀ i < st.SystemCoreClock, st.STATUS (st.reads + i) &&& mask = 0) →
      (CLK_WaitClockReady hw mask st).1 = 0 ∧
      (CLK_WaitClockReady hw mask st).2.g_CLK_i32ErrCode = hw.CLK_TIMEOUT_ERR) ∧
    ((∃ i < st.SystemCoreClock, st.STATUS (st.reads + i) &&& mask ≠ 0) →
      (CLK_WaitClockReady hw mask st).1 = 1 ∧
      (CLK_WaitClockReady hw mask st).2.g_CLK_i32ErrCode = 0) :=
  waitClockReady_cases hw mask st hN1 hN

theorem CLK_WaitClockReady_result_witness :
    (1 ≤ lateState.SystemCoreClock ∧ lateState.SystemCoreClock < 2 ^ 32) ∧
    ((CLK_WaitClockReady sampleHw 1 lateState).1 = 0 ∧
      (CLK_WaitClockReady sampleHw 1 lateState).2.g_CLK_i32ErrCode = -1) :=
  ⟨by decide, (CLK_WaitClockReady_result sampleHw 1 lateState (by decide) (by decide)).1
    (by decide)⟩

theorem selectSource_12MHz (hw : Hw) (sel : Nat) (st : ClkState)
    (hsel : sel = hw.CLK_PLLCTL_PLLSRC_HXT ∨ sel = hw.CLK_PLLCTL_PLLSRC_HIRC_DIV4) :
    (selectSource hw sel st).2.1 = 12000000 := by
  unfold selectSource
  split_ifs with h1 h2
  · rfl
  · rfl
  · rcases hsel with h | h
    · exact absurd h h1
    · exact absurd h h2

theorem selectSource_4MHz (hw : Hw) (sel : Nat) (st : ClkState)
    (h1 : sel ≠ hw.CLK_PLLCTL_PLLSRC_HXT) (h2 : sel ≠ hw.CLK_PLLCTL_PLLSRC_HIRC_DIV4) :
    (selectSource hw sel st).2.1 = 4000000 := by
  unfold selectSource
  rw [if_neg h1, if_neg h2]
  rfl

/-- C5. With a 12 MHz source (selector HXT or HIRC_DIV4) and the request
48,000,000 Hz the search of `CLK_EnablePLL` ends on a candidate of deviation
zero and the function returns exactly 48,000,000. -/
theorem CLK_EnablePLL_48MHz (hw : Hw) (sel : Nat) (st : ClkState)
    (hsel : sel = hw.CLK_PLLCTL_PLLSRC_HXT ∨ sel = hw.CLK_PLLCTL_PLLSRC_HIRC_DIV4) :
    (selectSource hw sel (CLK_DisablePLL hw st)).2.1 = 12000000 ∧
    (pllSearch 12000000 48000000).u32Min = 0 ∧
    (CLK_EnablePLL hw sel 48000000 st).1 = some 48000000 := by
  have hs := selectSource_12MHz hw sel (CLK_DisablePLL hw st) hsel
  refine ⟨hs, by decide, ?_⟩
  rw [CLK_EnablePLL_inRange_ret hw sel 48000000 st (by decide) (by decide), hs]
  decide

theorem CLK_EnablePLL_48MHz_witness :
    ((0 : Nat) = sampleHw.CLK_PLLCTL_PLLSRC_HXT ∨
      (0 : Nat) = sampleHw.CLK_PLLCTL_PLLSRC_HIRC_DIV4) ∧
    (CLK_EnablePLL sampleHw 0 48000000 lateState).1 = some 48000000 :=
  ⟨Or.inl rfl, (CLK_EnablePLL_48MHz sampleHw 0 lateState (Or.inl rfl)).2.2⟩

/-- C6, as stated, fails: for the 12 MHz source and the request 48 MHz the
search does not select R = 1, F = 16, O = 0. -/
theorem pllSearch_48MHz_not_R1 :
    ¬ ((pllSearch __HXT 48000000).u32MinNR = 1 ∧ (pllSearch __HXT 48000000).u32MinNF = 16 ∧
      (pllSearch __HXT 48000000).u32MinNO = 0) := by
  decide

/-- C6 (amended). With a 12 MHz source (HXT, or HIRC/4) and the request
48,000,000 Hz the search of `CLK_EnablePLL` selects R = 2, F = 16 and
output-divider index O = 1, with deviation zero: 12 MHz / 2 * 16 / 2 = 48 MHz. -/
theorem pllSearch_48MHz_triple :
    pllSearch __HXT 48000000 = ⟨0, 2, 16, 1⟩ ∧
    pllSearch (__HIRC >>> 2) 48000000 = ⟨0, 2, 16, 1⟩ := by
  decide

/-- C7. With the 4 MHz source (selector neither HXT nor HIRC_DIV4, hence MIRC)
and the request 100,000,000 Hz the search selects R = 1, F = 25, O = 0 with
deviation zero and `CLK_EnablePLL` returns 100,000,000. -/
theorem CLK_EnablePLL_MIRC_100MHz (hw : Hw) (sel : Nat) (st : ClkState)
    (h1 : sel ≠ hw.CLK_PLLCTL_PLLSRC_HXT) (h2 : sel ≠ hw.CLK_PLLCTL_PLLSRC_HIRC_DIV4) :
    (selectSource hw sel (CLK_DisablePLL hw st)).2.1 = 4000000 ∧
    pllSearch 4000000 100000000 = ⟨0, 1, 25, 0⟩ ∧
    (CLK_EnablePLL hw sel 100000000 st).1 = some 100000000 := by
  have hs := selectSource_4MHz hw sel (CLK_DisablePLL hw st) h1 h2
  refine ⟨hs, by decide, ?_⟩
  rw [CLK_EnablePLL_inRange_ret hw sel 100000000 st (by decide) (by decide), hs]
  decide

theorem CLK_EnablePLL_MIRC_100MHz_witness :
    ((0x100000 : Nat) ≠ sampleHw.CLK_PLLCTL_PLLSRC_HXT ∧
      (0x100000 : Nat) ≠ sampleHw.CLK_PLLCTL_PLLSRC_HIRC_DIV4) ∧
    (CLK_EnablePLL sampleHw 0x100000 100000000 lateState).1 = some 100000000 :=
  ⟨⟨by decide, by decide⟩,
    (CLK_EnablePLL_MIRC_100MHz sampleHw 0x100000 lateState (by decide) (by decide)).2.2⟩

theorem pllSearch_none (src f : Nat) (hno : ∀ R F, ¬ Admissible src R F) :
    pllSearch src f = Best.init := by
  rcases (pllSearch_spec src f).1 with h | ⟨_, _, R, hR, F, hF, hp, _⟩
  · exact h
  · exact absurd ((admissible_iff src R F).mpr ⟨hR, hF, hp⟩) (hno R F)

theorem pllWord_init (clk : Nat) : pllWord clk Best.init = clk := by
  simp [pllWord, Best.init]

theorem no_admissible_3MHz : ∀ R F, ¬ Admissible 3000000 R F := by
  intro R F h
  obtain ⟨⟨h1, h2⟩, ⟨h3, h4⟩, _⟩ := h
  interval_cases R <;> omega

/-- C8, as stated, fails: for the source frequency 3 MHz no pair (R, F) is
admissible, yet for the in-range request 50 MHz the word left in `PLLCTL` is
none of the six presets. -/
theorem applyPll_no_fallback :
    (∀ R F, ¬ Admissible 3000000 R F) ∧
    (applyPll sampleHw 0 0 3000000 50000000 lateState).2.PLLCTL ∉
      [sampleHw.CLK_PLLCTL_16MHz_HXT, sampleHw.CLK_PLLCTL_16MHz_HIRC_DIV4,
        sampleHw.CLK_PLLCTL_16MHz_MIRC, sampleHw.CLK_PLLCTL_100MHz_HXT,
        sampleHw.CLK_PLLCTL_100MHz_HIRC_DIV4, sampleHw.CLK_PLLCTL_100MHz_MIRC] := by
  exact ⟨no_admissible_3MHz, by decide⟩

/-- C8 (amended). For an in-range request and a source frequency for which no
pair (R, F) passes both range checks, `CLK_EnablePLL` does not fall back to a
preset: the search leaves `u32MinNO = u32MinNR = u32MinNF = 0` and line 456
writes `PLLCTL = u32ClkSrc`, the source bits with the three divider fields
zero. -/
theorem applyPll_no_candidate (hw : Hw) (sel clk src f : Nat) (st : ClkState)
    (hlo : 16000000 ≤ f) (hhi : f ≤ 100000000)
    (hno : ∀ R F, ¬ Admissible src R F) :
    pllSearch src f = Best.init ∧ (applyPll hw sel clk src f st).2.PLLCTL = clk := by
  refine ⟨pllSearch_none src f hno, ?_⟩
  rw [applyPll_inRange hw sel clk src f st hlo hhi]
  rw [(CLK_WaitClockReady_frame hw hw.CLK_STATUS_PLLSTB_Msk _).1]
  show pllWord clk (pllSearch src f) = clk
  rw [pllSearch_none src f hno, pllWord_init]

theorem applyPll_no_candidate_witness :
    ((16000000 ≤ 50000000 ∧ 50000000 ≤ 100000000) ∧ ∀ R F, ¬ Admissible 3000000 R F) ∧
    pllSearch 3000000 50000000 = Best.init ∧
    (applyPll sampleHw 0 0 3000000 50000000 lateState).2.PLLCTL = 0 :=
  ⟨⟨⟨by decide, by decide⟩, no_admissible_3MHz⟩,
    applyPll_no_candidate sampleHw 0 0 3000000 50000000 lateState (by decide) (by decide)
      no_admissible_3MHz⟩

theorem selectSource_frame (hw : Hw) (sel : Nat) (st : ClkState) :
    (selectSource hw sel st).2.2.STATUS = st.STATUS ∧
    (selectSource hw sel st).2.2.SystemCoreClock = st.SystemCoreClock := by
  unfold selectSource
  split_ifs
  · exact ⟨(CLK_WaitClockReady_frame hw _ _).2.2.1, (CLK_WaitClockReady_frame hw _ _).2.2.2⟩
  · constructor
    · show (CLK_WaitClockReady hw _ (CLK_WaitClockReady hw _ _).2).2.STATUS = _
      rw [(CLK_WaitClockReady_frame hw _ _).2.2.1, (CLK_WaitClockReady_frame hw _ _).2.2.1]
    · show (CLK_WaitClockReady hw _ (CLK_WaitClockReady hw _ _).2).2.SystemCoreClock = _
      rw [(CLK_WaitClockReady_frame hw _ _).2.2.2, (CLK_WaitClockReady_frame hw _ _).2.2.2]
  · constructor
    · show (CLK_WaitClockReady hw _ (CLK_WaitClockReady hw _ _).2).2.STATUS = _
      rw [(CLK_WaitClockReady_frame hw _ _).2.2.1, (CLK_WaitClockReady_frame hw _ _).2.2.1]
    · show (CLK_WaitClockReady hw _ (CLK_WaitClockReady hw _ _).2).2.SystemCoreClock = _
      rw [(CLK_WaitClockReady_frame hw _ _).2.2.2, (CLK_WaitClockReady_frame hw _ _).2.2.2]

theorem applyPll_state (hw : Hw) (sel clk src f : Nat) (st : ClkState) :
    ∃ w, (applyPll hw sel clk src f st).2 =
      (CLK_WaitClockReady hw hw.CLK_STATUS_PLLSTB_Msk { st with PLLCTL := w }).2 := by
  unfold applyPll
  split_ifs
  · exact ⟨_, rfl⟩
  · exact ⟨_, rfl⟩

/-- C9, as stated, fails: the HXT ready bit never asserts within its polling
window (the three reads allowed all return 0), the later PLL-stable wait
succeeds, and `g_CLK_i32ErrCode` is 0 on return, not `CLK_TIMEOUT_ERR`. -/
theorem CLK_EnablePLL_errCode_overwritten :
    (∀ i < lateState.SystemCoreClock,
      lateState.STATUS (lateState.reads + i) &&& sampleHw.CLK_STATUS_HXTSTB_Msk = 0) ∧
    (CLK_EnablePLL sampleHw sampleHw.CLK_PLLCTL_PLLSRC_HXT 48000000
      lateState).2.g_CLK_i32ErrCode = 0 ∧
    (CLK_EnablePLL sampleHw sampleHw.CLK_PLLCTL_PLLSRC_HXT 48000000
      lateState).2.g_CLK_i32ErrCode ≠ sampleHw.CLK_TIMEOUT_ERR := by
  decide

/-- C9 (amended). When `CLK_EnablePLL` returns, `g_CLK_i32ErrCode` reports the
last wait only, the PLL-stable wait: with `k` reads of `STATUS` consumed by the
waits for the source oscillator and `N = SystemCoreClock`, it is 0 when one of
the reads `k .. k+N-1` shows the PLL-stable bit and `CLK_TIMEOUT_ERR` when none
does, whatever the outcome of the wait for the source oscillator. -/
theorem CLK_EnablePLL_errCode (hw : Hw) (sel f : Nat) (st : ClkState)
    (hN1 : 1 ≤ st.SystemCoreClock) (hN : st.SystemCoreClock < 2 ^ 32) :
    ((∃ i < st.SystemCoreClock,
        st.STATUS ((selectSource hw sel (CLK_DisablePLL hw st)).2.2.reads + i) &&&
          hw.CLK_STATUS_PLLSTB_Msk ≠ 0) →
      (CLK_EnablePLL hw sel f st).2.g_CLK_i32ErrCode = 0) ∧
    ((∀ i < st.SystemCoreClock,
        st.STATUS ((selectSource hw sel (CLK_DisablePLL hw st)).2.2.reads + i) &&&
          hw.CLK_STATUS_PLLSTB_Msk = 0) →
      (CLK_EnablePLL hw sel f st).2.g_CLK_i32ErrCode = hw.CLK_TIMEOUT_ERR) := by
  obtain ⟨w, hw'⟩ := applyPll_state hw sel (selectSource hw sel (CLK_DisablePLL hw st)).1
    (selectSource hw sel (CLK_DisablePLL hw st)).2.1 f
    (selectSource hw sel (CLK_DisablePLL hw st)).2.2
  obtain ⟨hS, hC⟩ := selectSource_frame hw sel (CLK_DisablePLL hw st)
  have hS' : (selectSource hw sel (CLK_DisablePLL hw st)).2.2.STATUS = st.STATUS := hS
  have hC' : (selectSource hw sel (CLK_DisablePLL hw st)).2.2.SystemCoreClock =
      st.SystemCoreClock := hC
  rw [CLK_EnablePLL_eq, hw']
  have key := waitClockReady_cases hw hw.CLK_STATUS_PLLSTB_Msk
    { (selectSource hw sel (CLK_DisablePLL hw st)).2.2 with PLLCTL := w }
    (by show 1 ≤ (selectSource hw sel (CLK_DisablePLL hw st)).2.2.SystemCoreClock
        rw [hC']; exact hN1)
    (by show (selectSource hw sel (CLK_DisablePLL hw st)).2.2.SystemCoreClock < 2 ^ 32
        rw [hC']; exact hN)
  constructor
  · intro hex
    refine (key.2 ?_).2
    show ∃ i < (selectSource hw sel (CLK_DisablePLL hw st)).2.2.SystemCoreClock,
      (selectSource hw sel (CLK_DisablePLL hw st)).2.2.STATUS
        ((selectSource hw sel (CLK_DisablePLL hw st)).2.2.reads + i) &&&
          hw.CLK_STATUS_PLLSTB_Msk ≠ 0
    rw [hC', hS']
    exact hex
  · intro hz
    refine (key.1 ?_).2
    show ∀ i < (selectSource hw sel (CLK_DisablePLL hw st)).2.2.SystemCoreClock,
      (selectSource hw sel (CLK_DisablePLL hw st)).2.2.STATUS
        ((selectSource hw sel (CLK_DisablePLL hw st)).2.2.reads + i) &&&
          hw.CLK_STATUS_PLLSTB_Msk = 0
    rw [hC', hS']
    exact hz

theorem CLK_EnablePLL_errCode_witness :
    (1 ≤ lateState.SystemCoreClock ∧ lateState.SystemCoreClock < 2 ^ 32) ∧
    (CLK_EnablePLL sampleHw 0 48000000 lateState).2.g_CLK_i32ErrCode = 0 :=
  ⟨by decide,
    (CLK_EnablePLL_errCode sampleHw 0 48000000 lateState (by decide) (by decide)).1
      (by decide)⟩

theorem candidate_dev (src f O R F : Nat) (hhi : f ≤ 100000000) (hO : O ∈ [0, 1, 3])
    (hR : R ∈ List.range' 1 6) (hF : F ∈ List.range' 8 18) (hp : passes src R F) :
    (O = 0 → (candidate src f O R F).u32Min = Nat.dist (src / R * F) f) ∧
    (O = 1 → (candidate src f O R F).u32Min = Nat.dist (src / R * F) (2 * f) >>> 1) ∧
    (O = 3 → (candidate src f O R F).u32Min = Nat.dist (src / R * F) (4 * f) >>> 2) := by
  obtain ⟨_, ⟨_, h4⟩, ⟨_, h6⟩, _, h8⟩ := (admissible_iff src R F).mpr ⟨hR, hF, hp⟩
  have hm : src / R * F % 2 ^ 32 = src / R * F := Nat.mod_eq_of_lt (by omega)
  simp only [candidate, u32Tmp3, scaleTarget, hm, Nat.dist, Nat.shiftRight_eq_div_pow,
    Nat.shiftLeft_eq]
  refine ⟨fun h => ?_, fun h => ?_, fun h => ?_⟩ <;> subst h <;> norm_num <;>
    split_ifs <;> omega

/-- C10. For an in-range request the output-divider index the search selects
is 0, 1 or 3, never 2; when a candidate was found, its recorded deviation is
the distance of the VCO frequency `src / R * F` from the request itself for
index 0, from twice the request shifted right by 1 for index 1, and from four
times the request shifted right by 2 for index 3. -/
theorem pllSearch_divider_index (src f : Nat) (hlo : 16000000 ≤ f) (hhi : f ≤ 100000000) :
    ((pllSearch src f).u32MinNO = 0 ∨ (pllSearch src f).u32MinNO = 1 ∨
      (pllSearch src f).u32MinNO = 3) ∧
    (pllSearch src f ≠ Best.init →
      ((pllSearch src f).u32MinNO = 0 → (pllSearch src f).u32Min =
        Nat.dist (src / (pllSearch src f).u32MinNR * (pllSearch src f).u32MinNF) f) ∧
      ((pllSearch src f).u32MinNO = 1 → (pllSearch src f).u32Min =
        Nat.dist (src / (pllSearch src f).u32MinNR * (pllSearch src f).u32MinNF)
          (2 * f) >>> 1) ∧
      ((pllSearch src f).u32MinNO = 3 → (pllSearch src f).u32Min =
        Nat.dist (src / (pllSearch src f).u32MinNR * (pllSearch src f).u32MinNF)
          (4 * f) >>> 2)) := by
  have _h16 : FREQ_16MHZ ≤ f := hlo
  rcases (pllSearch_spec src f).1 with h | ⟨O, hO, R, hR, F, hF, hp, hb⟩
  · rw [h]
    exact ⟨Or.inl rfl, fun hne => absurd rfl hne⟩
  · rw [hb]
    refine ⟨?_, fun _ => candidate_dev src f O R F hhi hO hR hF hp⟩
    simp only [List.mem_cons, List.mem_singleton, List.not_mem_nil, or_false] at hO
    exact hO

theorem pllSearch_divider_index_witness :
    (16000000 ≤ 48000000 ∧ 48000000 ≤ 100000000) ∧
    ((pllSearch 12000000 48000000).u32MinNO = 0 ∨ (pllSearch 12000000 48000000).u32MinNO = 1 ∨
      (pllSearch 12000000 48000000).u32MinNO = 3) :=
  ⟨by decide, (pllSearch_divider_index 12000000 48000000 (by decide) (by decide)).1⟩

/-- C11. For an in-range request and any of the three nominal sources, the
frequency `CLK_EnablePLL` returns from its search path is at least 16,000,000
and at most 100,000,000. -/
theorem CLK_EnablePLL_return_range (hw : Hw) (sel f : Nat) (st : ClkState)
    (hlo : 16000000 ≤ f) (hhi : f ≤ 100000000) :
    ∃ r, (CLK_EnablePLL hw sel f st).1 = some r ∧ 16000000 ≤ r ∧ r ≤ 100000000 := by
  have hnom := selectSource_src hw sel (CLK_DisablePLL hw st)
  rw [CLK_EnablePLL_inRange_ret hw sel f st hlo hhi]
  generalize (selectSource hw sel (CLK_DisablePLL hw st)).2.1 = src at hnom ⊢
  obtain ⟨O, hO, R, hR, F, hF, hp, hb⟩ := pllSearch_nominal src f (by omega) hnom
  obtain ⟨⟨h1, h2⟩, _, ⟨_, h6⟩, h7, h8⟩ := (admissible_iff src R F).mpr ⟨hR, hF, hp⟩
  obtain ⟨hret, _⟩ := nominal_candidate src f O R F hnom hO h1 h2 h6 hp hhi
  refine ⟨src / R * F / au8NoTbl.getD O 0, by rw [hb, hret], ?_, ?_⟩
  · simp only [List.mem_cons, List.mem_singleton, List.not_mem_nil, or_false] at hO
    rcases hO with rfl | rfl | rfl <;> simp [au8NoTbl] <;> omega
  · exact le_trans (Nat.div_le_self _ _) h8

theorem CLK_EnablePLL_return_range_witness :
    (16000000 ≤ 57000000 ∧ 57000000 ≤ 100000000) ∧
    ∃ r, (CLK_EnablePLL sampleHw 0 57000000 lateState).1 = some r ∧
      16000000 ≤ r ∧ r ≤ 100000000 :=
  ⟨by decide, CLK_EnablePLL_return_range sampleHw 0 57000000 lateState (by decide) (by decide)⟩

theorem selectSource_indep (hw : Hw) (sel : Nat) (st1 st2 : ClkState) :
    (selectSource hw sel st1).1 = (selectSource hw sel st2).1 ∧
    (selectSource hw sel st1).2.1 = (selectSource hw sel st2).2.1 := by
  unfold selectSource
  split_ifs <;> exact ⟨rfl, rfl⟩

theorem CLK_GetPLLClockFreq_congr (hw : Hw) (st1 st2 : ClkState)
    (h : st1.PLLCTL = st2.PLLCTL) :
    CLK_GetPLLClockFreq hw st1 = CLK_GetPLLClockFreq hw st2 := by
  unfold CLK_GetPLLClockFreq
  rw [h]

theorem applyPll_indep (hw : Hw) (sel clk src f : Nat) (st1 st2 : ClkState) :
    (applyPll hw sel clk src f st1).1 = (applyPll hw sel clk src f st2).1 ∧
    (applyPll hw sel clk src f st1).2.PLLCTL = (applyPll hw sel clk src f st2).2.PLLCTL := by
  by_cases h : 16000000 ≤ f ∧ f ≤ 100000000
  · rw [applyPll_inRange hw sel clk src f st1 h.1 h.2,
      applyPll_inRange hw sel clk src f st2 h.1 h.2]
    refine ⟨rfl, ?_⟩
    rw [(CLK_WaitClockReady_frame hw hw.CLK_STATUS_PLLSTB_Msk _).1,
      (CLK_WaitClockReady_frame hw hw.CLK_STATUS_PLLSTB_Msk _).1]
  · have hout : f < 16000000 ∨ 100000000 < f := by omega
    rw [applyPll_outOfRange hw sel clk src f st1 hout,
      applyPll_outOfRange hw sel clk src f st2 hout]
    have e : (CLK_WaitClockReady hw hw.CLK_STATUS_PLLSTB_Msk
          { st1 with PLLCTL := presetWord hw sel f }).2.PLLCTL =
        (CLK_WaitClockReady hw hw.CLK_STATUS_PLLSTB_Msk
          { st2 with PLLCTL := presetWord hw sel f }).2.PLLCTL := by
      rw [(CLK_WaitClockReady_frame hw hw.CLK_STATUS_PLLSTB_Msk _).1,
        (CLK_WaitClockReady_frame hw hw.CLK_STATUS_PLLSTB_Msk _).1]
    exact ⟨CLK_GetPLLClockFreq_congr hw _ _ e, e⟩

/-- C14. `CLK_EnablePLL` is deterministic: the word it leaves in `PLLCTL` (hence
R, F and O) and the frequency it returns are functions of the source selector
and the requested frequency alone, so two runs with the same selector and
request agree on both, in particular two runs from the same starting state with
the same sequence of status reads. -/
theorem CLK_EnablePLL_deterministic (hw : Hw) (sel f : Nat) (st1 st2 : ClkState) :
    (CLK_EnablePLL hw sel f st1).1 = (CLK_EnablePLL hw sel f st2).1 ∧
    (CLK_EnablePLL hw sel f st1).2.PLLCTL = (CLK_EnablePLL hw sel f st2).2.PLLCTL := by
  rw [CLK_EnablePLL_eq, CLK_EnablePLL_eq]
  obtain ⟨e1, e2⟩ := selectSource_indep hw sel (CLK_DisablePLL hw st1) (CLK_DisablePLL hw st2)
  rw [e1, e2]
  exact applyPll_indep hw sel _ _ f _ _

theorem au8NoTbl_bounds (i NO : Nat) (h : au8NoTbl[i]? = some NO) : 1 ≤ NO ∧ NO ≤ 4 := by
  rcases Nat.lt_or_ge i 4 with hi | hi
  · interval_cases i <;> simp [au8NoTbl] at h <;> omega
  · simp [au8NoTbl, List.getElem?_eq_none, hi] at h

theorem pllFreqCalc_exact (FIN NF NR NO : Nat) (hFIN : FIN ≤ 24000000) (hNF : NF ≤ 25)
    (hNR1 : 1 ≤ NR) (hNR : NR < 2 ^ 23) (hNO1 : 1 ≤ NO) (hNO : NO ≤ 4) :
    pllFreqCalc FIN NF NR NO = some (4 * (FIN / 4 * NF / (NR * NO))) := by
  have hd1 : 1 ≤ NR * NO := Nat.mul_pos hNR1 hNO1
  have hd2 : NR * NO ≤ 2 ^ 23 * 4 := Nat.mul_le_mul (le_of_lt hNR) hNO
  have hd : NR * NO % 2 ^ 32 = NR * NO := Nat.mod_eq_of_lt (by omega)
  have hn0 : FIN / 4 * NF ≤ 6000000 * 25 := Nat.mul_le_mul (by omega) hNF
  have hn : FIN / 4 * NF % 2 ^ 32 = FIN / 4 * NF := Nat.mod_eq_of_lt (by omega)
  have hq : FIN / 4 * NF / (NR * NO) ≤ 6000000 * 25 :=
    le_trans (Nat.div_le_self _ _) hn0
  unfold pllFreqCalc
  rw [hd, if_neg (by omega), Nat.shiftRight_eq_div_pow, Nat.shiftLeft_eq]
  have hn' : FIN / 2 ^ 2 * NF % 2 ^ 32 = FIN / 4 * NF := hn
  rw [hn']
  have h4 : FIN / 4 * NF / (NR * NO) * 2 ^ 2 % 2 ^ 32 = FIN / 4 * NF / (NR * NO) * 2 ^ 2 :=
    Nat.mod_eq_of_lt (by omega)
  rw [h4]
  congr 1
  omega

/-- C12. `CLK_GetPLLClockFreq` on a `PLLCTL` word returns 0 when the PD or OE
bit is set, the source frequency FIN when both are clear and the bypass bit is
set, and otherwise the value of line 292 for the fields NF, NR (the input
divider sits at bit 9, line 456) and NO taken from the table {1, 2, 4, 4};
for FIN ≤ 24,000,000, NF ≤ 25 and NR ≥ 1 that value is computed without any
wrap modulo 2^32 and equals 4 * floor(floor(FIN / 4) * NF / (NR * NO)). -/
theorem CLK_GetPLLClockFreq_value (hw : Hw) (st : ClkState) :
    (st.PLLCTL &&& (hw.CLK_PLLCTL_PD_Msk ||| hw.CLK_PLLCTL_OE_Msk) ≠ 0 →
      CLK_GetPLLClockFreq hw st = some 0) ∧
    (st.PLLCTL &&& (hw.CLK_PLLCTL_PD_Msk ||| hw.CLK_PLLCTL_OE_Msk) = 0 →
      st.PLLCTL &&& hw.CLK_PLLCTL_BP_Msk ≠ 0 →
      CLK_GetPLLClockFreq hw st = some (pllFIN hw st.PLLCTL)) ∧
    (st.PLLCTL &&& (hw.CLK_PLLCTL_PD_Msk ||| hw.CLK_PLLCTL_OE_Msk) = 0 →
      st.PLLCTL &&& hw.CLK_PLLCTL_BP_Msk = 0 →
      ∀ NO, au8NoTbl[(st.PLLCTL &&& hw.CLK_PLLCTL_OUTDIV_Msk) >>>
          hw.CLK_PLLCTL_OUTDIV_Pos]? = some NO →
        CLK_GetPLLClockFreq hw st = pllFreqCalc (pllFIN hw st.PLLCTL)
          ((st.PLLCTL &&& hw.CLK_PLLCTL_FBDIV_Msk) >>> hw.CLK_PLLCTL_FBDIV_Pos)
          ((st.PLLCTL &&& hw.CLK_PLLCTL_INDIV_Msk) >>> hw.CLK_PLLCTL_INDIV_Pos) NO) ∧
    pllFIN hw st.PLLCTL ≤ 24000000 ∧
    (∀ (i FIN NF NR NO : Nat), au8NoTbl[i]? = some NO → FIN ≤ 24000000 → NF ≤ 25 → 1 ≤ NR →
      NR < 2 ^ 23 → pllFreqCalc FIN NF NR NO = some (4 * (FIN / 4 * NF / (NR * NO)))) ∧
    (st.PLLCTL < 2 ^ 32 → hw.CLK_PLLCTL_INDIV_Pos = 9 →
      (st.PLLCTL &&& hw.CLK_PLLCTL_INDIV_Msk) >>> hw.CLK_PLLCTL_INDIV_Pos < 2 ^ 23) := by
  refine ⟨fun h => ?_, fun h1 h2 => ?_, fun h1 h2 NO hNO => ?_, ?_, ?_, fun hReg hPos => ?_⟩
  · unfold CLK_GetPLLClockFreq
    simp only [if_neg h]
  · unfold CLK_GetPLLClockFreq
    simp only [if_pos h1, if_pos h2]
  · unfold CLK_GetPLLClockFreq
    have h2' : ¬ (st.PLLCTL &&& hw.CLK_PLLCTL_BP_Msk ≠ 0) := by simpa using h2
    simp only [if_pos h1, if_neg h2', hNO]
  · unfold pllFIN
    split_ifs <;> decide
  · intro i FIN NF NR NO hNO hFIN hNF hNR1 hNR
    obtain ⟨a, b⟩ := au8NoTbl_bounds i NO hNO
    exact pllFreqCalc_exact FIN NF NR NO hFIN hNF hNR1 hNR a b
  · rw [hPos, Nat.shiftRight_eq_div_pow]
    have := Nat.and_le_left (n := st.PLLCTL) (m := hw.CLK_PLLCTL_INDIV_Msk)
    have h3 : (st.PLLCTL &&& hw.CLK_PLLCTL_INDIV_Msk) / 2 ^ 9 ≤ st.PLLCTL / 2 ^ 9 :=
      Nat.div_le_div_right this
    omega

theorem CLK_GetPLLClockFreq_value_witness :
    CLK_GetPLLClockFreq sampleHw { lateState with PLLCTL := 17424 } =
        pllFreqCalc 12000000 16 2 2 ∧
    pllFreqCalc 12000000 16 2 2 = some (4 * (12000000 / 4 * 16 / (2 * 2))) :=
  ⟨(CLK_GetPLLClockFreq_value sampleHw { lateState with PLLCTL := 17424 }).2.2.1
      (by decide) (by decide) 2 (by decide),
    (CLK_GetPLLClockFreq_value sampleHw lateState).2.2.2.2.1 1 12000000 16 2 2
      (by decide) (by decide) (by decide) (by decide) (by decide)⟩

theorem coreClockRequest_eq (u : Nat) :
    coreClockRequest u = 2 * max 25000000 (min u 48000000) := by
  unfold coreClockRequest
  simp only [FREQ_48MHZ, FREQ_25MHZ, Nat.shiftLeft_eq]
  split_ifs <;> omega

theorem pllReturn_12MHz_range (f : Nat) (hlo : 50000000 ≤ f) (hhi : f ≤ 96000000) :
    ∃ pll, pllReturn 12000000 (pllSearch 12000000 f) = some pll ∧
      50000000 ≤ pll ∧ pll ≤ 96000000 := by
  have hnom : (12000000 : Nat) = 12000000 ∨ (12000000 : Nat) = 4000000 := Or.inl rfl
  obtain ⟨O, hO, R, hR, F, hF, hp, hb⟩ := pllSearch_nominal 12000000 f (by omega) hnom
  obtain ⟨⟨h1, h2⟩, _, ⟨_, h6⟩, _, _⟩ := (admissible_iff 12000000 R F).mpr ⟨hR, hF, hp⟩
  obtain ⟨hret, hdev⟩ := nominal_candidate 12000000 f O R F hnom hO h1 h2 h6 hp (by omega)
  have hpa : passes 12000000 3 25 := by decide
  have hpb : passes 12000000 2 16 := by decide
  have ha := (pllSearch_spec 12000000 f).2 1 (by simp) 3 (by simp) 25 (by simp) hpa
  have hb' := (pllSearch_spec 12000000 f).2 0 (by simp) 2 (by simp) 16 (by simp) hpb
  obtain ⟨_, hda⟩ := nominal_candidate 12000000 f 1 3 25 hnom (by simp) (by omega) (by omega)
    (by omega) hpa (by omega)
  obtain ⟨_, hdb⟩ := nominal_candidate 12000000 f 0 2 16 hnom (by simp) (by omega) (by omega)
    (by omega) hpb (by omega)
  rw [hb] at ha hb'
  have ha2 : ((candidate 12000000 f O R F).u32Min : Int) ≤
      ((candidate 12000000 f 1 3 25).u32Min : Int) := by exact_mod_cast ha
  have hb2 : ((candidate 12000000 f O R F).u32Min : Int) ≤
      ((candidate 12000000 f 0 2 16).u32Min : Int) := by exact_mod_cast hb'
  rw [hdev, hda] at ha2
  rw [hdev, hdb] at hb2
  refine ⟨12000000 / R * F / au8NoTbl.getD O 0, by rw [hb, hret], ?_, ?_⟩
  · have e : ((12000000 / 3 * 25 / au8NoTbl.getD 1 0 : Nat) : Int) = 50000000 := by
      simp [au8NoTbl]
    rw [e, abs_of_nonpos (by omega : (50000000 : Int) - (f : Int) ≤ 0)] at ha2
    have := neg_abs_le (((12000000 / R * F / au8NoTbl.getD O 0 : Nat) : Int) - (f : Int))
    omega
  · have e : ((12000000 / 2 * 16 / au8NoTbl.getD 0 0 : Nat) : Int) = 96000000 := by
      simp [au8NoTbl]
    rw [e, abs_of_nonneg (by omega : (0 : Int) ≤ (96000000 : Int) - (f : Int))] at hb2
    have := le_abs_self (((12000000 / R * F / au8NoTbl.getD O 0 : Nat) : Int) - (f : Int))
    omega

theorem CLK_EnablePLL_12MHz_range (hw : Hw) (sel f : Nat) (st : ClkState)
    (hsel : sel = hw.CLK_PLLCTL_PLLSRC_HXT ∨ sel = hw.CLK_PLLCTL_PLLSRC_HIRC_DIV4)
    (hlo : 50000000 ≤ f) (hhi : f ≤ 96000000) :
    ∃ pll, (CLK_EnablePLL hw sel f st).1 = some pll ∧ 50000000 ≤ pll ∧ pll ≤ 96000000 := by
  rw [CLK_EnablePLL_inRange_ret hw sel f st (by omega) (by omega),
    selectSource_12MHz hw sel _ hsel]
  exact pllReturn_12MHz_range f hlo hhi

theorem coreClockRequest_range (u : Nat) :
    50000000 ≤ coreClockRequest u ∧ coreClockRequest u ≤ 96000000 := by
  rw [coreClockRequest_eq]
  omega

/-- C13. `CLK_SetCoreClock` requests the PLL frequency
2 * clamp(u32Hclk, 25 MHz, 48 MHz). When the HXT stable flag reads set, or
when it reads clear and the MIRC and HIRC stable flags then read set, the PLL
is configured from a 12 MHz source to a frequency in [50 MHz, 96 MHz] and the
value returned is half of it, hence in [25 MHz, 48 MHz]; when neither holds
the function returns 0. -/
theorem CLK_SetCoreClock_result (hw : Hw) (hh : HclkHw) (u : Nat) (s : CoreState) :
    coreClockRequest u = 2 * max 25000000 (min u 48000000) ∧
    ((coreClockPrepare hw hh s).clk.STATUS (coreClockPrepare hw hh s).clk.reads &&&
        hw.CLK_STATUS_HXTSTB_Msk ≠ 0 →
      ∃ pll, (CLK_EnablePLL hw hw.CLK_PLLCTL_PLLSRC_HXT (coreClockRequest u)
          (afterRead (coreClockPrepare hw hh s).clk)).1 = some pll ∧
        (50000000 ≤ pll ∧ pll ≤ 96000000) ∧
        (CLK_SetCoreClock hw hh u s).1 = some (pll / 2) ∧
        (25000000 ≤ pll / 2 ∧ pll / 2 ≤ 48000000)) ∧
    ((coreClockPrepare hw hh s).clk.STATUS (coreClockPrepare hw hh s).clk.reads &&&
        hw.CLK_STATUS_HXTSTB_Msk = 0 →
      (coreClockPrepare hw hh s).clk.STATUS ((coreClockPrepare hw hh s).clk.reads + 1) &&&
        hw.CLK_STATUS_MIRCSTB_Msk ≠ 0 →
      (coreClockPrepare hw hh s).clk.STATUS ((coreClockPrepare hw hh s).clk.reads + 2) &&&
        hw.CLK_STATUS_HIRCSTB_Msk ≠ 0 →
      ∃ pll, (CLK_EnablePLL hw hw.CLK_PLLCTL_PLLSRC_HIRC_DIV4 (coreClockRequest u)
          (afterRead (afterRead (afterRead (coreClockPrepare hw hh s).clk)))).1 = some pll ∧
        (50000000 ≤ pll ∧ pll ≤ 96000000) ∧
        (CLK_SetCoreClock hw hh u s).1 = some (pll / 2) ∧
        (25000000 ≤ pll / 2 ∧ pll / 2 ≤ 48000000)) ∧
    ((coreClockPrepare hw hh s).clk.STATUS (coreClockPrepare hw hh s).clk.reads &&&
        hw.CLK_STATUS_HXTSTB_Msk = 0 →
      ((coreClockPrepare hw hh s).clk.STATUS ((coreClockPrepare hw hh s).clk.reads + 1) &&&
          hw.CLK_STATUS_MIRCSTB_Msk = 0 ∨
        (coreClockPrepare hw hh s).clk.STATUS ((coreClockPrepare hw hh s).clk.reads + 2) &&&
          hw.CLK_STATUS_HIRCSTB_Msk = 0) →
      (CLK_SetCoreClock hw hh u s).1 = some 0) := by
  obtain ⟨hr1, hr2⟩ := coreClockRequest_range u
  refine ⟨coreClockRequest_eq u, fun h1 => ?_, fun h1 h2 h3 => ?_, fun h1 h23 => ?_⟩
  · obtain ⟨pll, hp, hlo, hhi⟩ := CLK_EnablePLL_12MHz_range hw hw.CLK_PLLCTL_PLLSRC_HXT
      (coreClockRequest u) (afterRead (coreClockPrepare hw hh s).clk) (Or.inl rfl) hr1 hr2
    refine ⟨pll, hp, ⟨hlo, hhi⟩, ?_, by omega, by omega⟩
    unfold CLK_SetCoreClock coreClockApply
    rw [if_pos h1]
    show Option.map (fun x => x >>> 1) (CLK_EnablePLL hw hw.CLK_PLLCTL_PLLSRC_HXT
      (coreClockRequest u) (afterRead (coreClockPrepare hw hh s).clk)).1 = _
    rw [hp]
    simp [Nat.shiftRight_eq_div_pow]
  · obtain ⟨pll, hp, hlo, hhi⟩ := CLK_EnablePLL_12MHz_range hw hw.CLK_PLLCTL_PLLSRC_HIRC_DIV4
      (coreClockRequest u) (afterRead (afterRead (afterRead (coreClockPrepare hw hh s).clk)))
      (Or.inr rfl) hr1 hr2
    refine ⟨pll, hp, ⟨hlo, hhi⟩, ?_, by omega, by omega⟩
    unfold CLK_SetCoreClock coreClockApply
    rw [if_neg (by simpa using h1), if_pos h2, if_pos h3]
    show Option.map (fun x => x >>> 1) (CLK_EnablePLL hw hw.CLK_PLLCTL_PLLSRC_HIRC_DIV4
      (coreClockRequest u)
      (afterRead (afterRead (afterRead (coreClockPrepare hw hh s).clk)))).1 = _
    rw [hp]
    simp [Nat.shiftRight_eq_div_pow]
  · unfold CLK_SetCoreClock coreClockApply
    rw [if_neg (by simpa using h1)]
    by_cases h2 : (coreClockPrepare hw hh s).clk.STATUS
        ((coreClockPrepare hw hh s).clk.reads + 1) &&& hw.CLK_STATUS_MIRCSTB_Msk ≠ 0
    · rw [if_pos h2]
      rcases h23 with h | h
      · exact absurd h h2
      · rw [if_neg (by simpa using h)]
    · rw [if_neg h2]

theorem CLK_SetCoreClock_result_witness :
    ∃ pll, (CLK_EnablePLL sampleHw sampleHw.CLK_PLLCTL_PLLSRC_HXT (coreClockRequest 30000000)
        (afterRead (coreClockPrepare sampleHw sampleHclkHw readyCore).clk)).1 = some pll ∧
      (50000000 ≤ pll ∧ pll ≤ 96000000) ∧
      (CLK_SetCoreClock sampleHw sampleHclkHw 30000000 readyCore).1 = some (pll / 2) ∧
      (25000000 ≤ pll / 2 ∧ pll / 2 ≤ 48000000) :=
  (CLK_SetCoreClock_result sampleHw sampleHclkHw 30000000 readyCore).2.1 (by decide)

/-- C15. For a 32768 Hz LCD source clock, 4 COMs (COM duty 1/4) and a target
frame rate of 32 Hz, `LCD_Open` computes the frequency divider 256 for a type-B
waveform and 128 for a type-A waveform, and returns 32 in both cases. -/
theorem LCD_Open_example (hw : LcdHw) (cfg : S_LCD_CFG_T)
    (hsrc : cfg.u32SrcFreq = 32768) (hcom : lcdComNum hw cfg = 4)
    (hfr : cfg.u32Framerate = 32) :
    (cfg.u32WaveformType &&& hw.LCD_PSET_TYPE_Msk = hw.LCD_PSET_TYPE_Msk →
      LCD_Open hw cfg = some (32, some 256)) ∧
    (cfg.u32WaveformType &&& hw.LCD_PSET_TYPE_Msk ≠ hw.LCD_PSET_TYPE_Msk →
      LCD_Open hw cfg = some (32, some 128)) := by
  constructor
  · intro h
    unfold LCD_Open
    rw [if_pos h, hcom, hsrc, hfr]
    decide
  · intro h
    unfold LCD_Open
    rw [if_neg h, hcom, hsrc, hfr]
    decide

theorem LCD_Open_example_witness :
    ((sampleCfg 0).u32SrcFreq = 32768 ∧ lcdComNum sampleLcdHw (sampleCfg 0) = 4 ∧
      (sampleCfg 0).u32Framerate = 32) ∧
    LCD_Open sampleLcdHw (sampleCfg 0) = some (32, some 128) :=
  ⟨by decide, (LCD_Open_example sampleLcdHw (sampleCfg 0) rfl (by decide) rfl).2 (by decide)⟩

/-- C16, as stated, fails: with a 2000 Hz source, 3 COMs, type B and the frame
rate 1431655766 the product `u32Framerate * u32ComNum` wraps modulo 2^32 to 2,
the divider is 1000 (at least 1, not above 1024) and is written, yet `LCD_Open`
returns 0. -/
theorem LCD_Open_zero_with_small_divider :
    (1 ≤ 1431655766 ∧
      lcdComNum sampleLcdHw { sampleCfg 8 with u32ComDuty := 2 } = 3 ∧
      2000 / ((1431655766 * 3) % 2 ^ 32) = 1000) ∧
    LCD_Open sampleLcdHw
      { sampleCfg 8 with u32SrcFreq := 2000, u32ComDuty := 2, u32Framerate := 1431655766 } =
        some (0, some 1000) := by
  decide

/-- C16 (amended). For every LCD configuration with `u32Framerate ≥ 1` whose
product `u32Framerate * u32ComNum` (doubled for type A) stays below 2^32 and
whose divider `u32FreqDiv = u32SrcFreq / u32FreqLCD` is at least 1, `LCD_Open`
returns 0 exactly when `u32FreqDiv > 1024`, and then the frequency divider is
not written; otherwise it writes `u32FreqDiv` and returns the non-zero frame
rate `u32SrcFreq / (u32ComNum * u32FreqDiv)` for type B and that value halved
for type A. -/
theorem LCD_Open_result (hw : LcdHw) (cfg : S_LCD_CFG_T) (k : Nat)
    (hk : k = if cfg.u32WaveformType &&& hw.LCD_PSET_TYPE_Msk = hw.LCD_PSET_TYPE_Msk
      then 1 else 2)
    (hsrc : cfg.u32SrcFreq < 2 ^ 32) (hfr : 1 ≤ cfg.u32Framerate)
    (hnowrap : cfg.u32Framerate * lcdComNum hw cfg * k < 2 ^ 32)
    (hdiv : 1 ≤ cfg.u32SrcFreq / (cfg.u32Framerate * lcdComNum hw cfg * k)) :
    (1024 < cfg.u32SrcFreq / (cfg.u32Framerate * lcdComNum hw cfg * k) →
      LCD_Open hw cfg = some (0, none)) ∧
    (cfg.u32SrcFreq / (cfg.u32Framerate * lcdComNum hw cfg * k) ≤ 1024 →
      LCD_Open hw cfg = some
        (cfg.u32SrcFreq / (lcdComNum hw cfg *
          (cfg.u32SrcFreq / (cfg.u32Framerate * lcdComNum hw cfg * k))) / k,
        some (cfg.u32SrcFreq / (cfg.u32Framerate * lcdComNum hw cfg * k))) ∧
      cfg.u32SrcFreq / (lcdComNum hw cfg *
          (cfg.u32SrcFreq / (cfg.u32Framerate * lcdComNum hw cfg * k))) / k ≠ 0) := by
  generalize hC : lcdComNum hw cfg = C at *
  generalize hS : cfg.u32SrcFreq = S at *
  generalize hF : cfg.u32Framerate = Fr at *
  have hLpos : 0 < Fr * C * k := by
    rcases Nat.eq_zero_or_pos (Fr * C * k) with h0 | h0
    · rw [h0, Nat.div_zero] at hdiv; omega
    · exact h0
  have hkpos : 0 < k := Nat.pos_of_ne_zero (fun h => by rw [h] at hLpos; simp at hLpos)
  have hCpos : 0 < C := Nat.pos_of_ne_zero (fun h => by rw [h] at hLpos; simp at hLpos)
  set D := S / (Fr * C * k) with hD
  -- the divider times the operating frequency is at most the source frequency
  have hmul : Fr * C * k * D ≤ S := Nat.mul_div_le S (Fr * C * k)
  have hCD : C * D * (Fr * k) ≤ S := by
    have : C * D * (Fr * k) = Fr * C * k * D := by ring
    omega
  have hFk : 1 ≤ Fr * k := Nat.mul_pos hfr hkpos
  have hCDle : C * D ≤ S := le_trans (Nat.le_mul_of_pos_right _ hFk) hCD
  have hCDpos : 0 < C * D := Nat.mul_pos hCpos hdiv
  have hCDmod : C * D % 2 ^ 32 = C * D := Nat.mod_eq_of_lt (by omega)
  have hrate : Fr * k ≤ S / (C * D) := (Nat.le_div_iff_mul_le hCDpos).mpr (by
    have : Fr * k * (C * D) = C * D * (Fr * k) := by ring
    omega)
  have hFC : Fr * C < 2 ^ 32 := lt_of_le_of_lt (Nat.le_mul_of_pos_right _ hkpos) hnowrap
  have hFCmod : Fr * C % 2 ^ 32 = Fr * C := Nat.mod_eq_of_lt hFC
  unfold LCD_Open
  rw [hC, hS, hF]
  by_cases hB : cfg.u32WaveformType &&& hw.LCD_PSET_TYPE_Msk = hw.LCD_PSET_TYPE_Msk
  · rw [if_pos hB] at hk
    subst hk
    simp only [Nat.mul_one] at hD hLpos hnowrap hrate ⊢
    rw [if_pos hB, hFCmod, if_neg (by omega), ← hD]
    refine ⟨fun h => by rw [if_pos h], fun h => ?_⟩
    rw [if_neg (by omega), hCDmod, if_neg (by omega)]
    simp only [Nat.div_one]
    exact ⟨trivial, by omega⟩
  · rw [if_neg hB] at hk
    subst hk
    have h2mod : Fr * C % 2 ^ 32 * 2 % 2 ^ 32 = Fr * C * 2 := by
      rw [hFCmod]; exact Nat.mod_eq_of_lt hnowrap
    rw [if_neg hB, h2mod, if_neg (by omega), ← hD]
    refine ⟨fun h => by rw [if_pos h], fun h => ?_⟩
    rw [if_neg (by omega), hCDmod, if_neg (by omega)]
    refine ⟨rfl, ?_⟩
    have : 1 ≤ S / (C * D) / 2 := (Nat.le_div_iff_mul_le (by norm_num)).mpr (by omega)
    omega

theorem LCD_Open_result_witness :
    ((1 : Nat) = (if (sampleCfg 8).u32WaveformType &&& sampleLcdHw.LCD_PSET_TYPE_Msk =
        sampleLcdHw.LCD_PSET_TYPE_Msk then 1 else 2) ∧
      (sampleCfg 8).u32SrcFreq < 2 ^ 32 ∧ 1 ≤ (sampleCfg 8).u32Framerate ∧
      (sampleCfg 8).u32Framerate * lcdComNum sampleLcdHw (sampleCfg 8) * 1 < 2 ^ 32 ∧
      1 ≤ (sampleCfg 8).u32SrcFreq /
        ((sampleCfg 8).u32Framerate * lcdComNum sampleLcdHw (sampleCfg 8) * 1)) ∧
    LCD_Open sampleLcdHw (sampleCfg 8) = some (32, some 256) :=
  ⟨by decide,
    ((LCD_Open_result sampleLcdHw (sampleCfg 8) 1 (by decide) (by decide) (by decide)
      (by decide) (by decide)).2 (by decide)).1⟩

/-- C17 fails on the code: for a 48 MHz PWM clock and the request 30 MHz
`TPWM_ConfigOutputFreqAndDuty` keeps prescaler 1 and period 1 and returns
48,000,000, although prescaler 2 with period 1 gives 24,000,000, which is
nearer to the request. -/
theorem TPWM_not_nearest :
    (1 ≤ 30000000 ∧ 30000000 ≤ 48000000) ∧
    TPWM_ConfigOutputFreqAndDuty 48000000 30000000 50 = some (48000000, 1, 1, 0) ∧
    (2 ∈ List.range' 1 256 ∧ 1 ∈ List.range' 1 65536) ∧
    Nat.dist (48000000 / 2 / 1) 30000000 < Nat.dist 48000000 30000000 := by
  refine ⟨by decide, by decide, ⟨by decide, ?_⟩, by decide⟩
  rw [List.mem_range'_1]
  omega

theorem blink_period_pos (hw : LcdHw) (PSET r : Nat) (h1 : 1 ≤ r) (h2 : r ≤ 1000) :
    1 ≤ (if PSET &&& hw.LCD_PSET_TYPE_Msk = hw.LCD_PSET_TYPE_Msk then (1000 * 2) / r
      else 1000 / r) := by
  split_ifs
  · exact (Nat.le_div_iff_mul_le (by omega)).mpr (by omega)
  · exact (Nat.le_div_iff_mul_le (by omega)).mpr (by omega)

/-- C18. For every `u32ms` and every stored frame rate `r` with 1 ≤ r ≤ 1000,
`LCD_EnableBlink` programs the count `k = clamp(u32ms / P, 1, 1024)` and returns
`P * k`, where `P` is the one-count period (2000 / r for type B, 1000 / r for
type A); the result is a multiple of `P` and, when `P ≤ u32ms`, at most
`u32ms`. -/
theorem LCD_EnableBlink_result (hw : LcdHw) (PSET r u32ms P : Nat)
    (h1 : 1 ≤ r) (h2 : r ≤ 1000)
    (hP : P = if PSET &&& hw.LCD_PSET_TYPE_Msk = hw.LCD_PSET_TYPE_Msk then 2000 / r
      else 1000 / r) :
    LCD_EnableBlink hw PSET r u32ms =
      some (P * max 1 (min (u32ms / P) 1024), max 1 (min (u32ms / P) 1024)) ∧
    P ∣ P * max 1 (min (u32ms / P) 1024) ∧
    (P ≤ u32ms → P * max 1 (min (u32ms / P) 1024) ≤ u32ms) := by
  have hpos := blink_period_pos hw PSET r h1 h2
  have hP' : (if PSET &&& hw.LCD_PSET_TYPE_Msk = hw.LCD_PSET_TYPE_Msk then (1000 * 2) / r
      else 1000 / r) = P := by rw [hP]
  rw [hP'] at hpos
  have hPle : P ≤ 2000 := by
    rw [hP]; split_ifs <;> exact le_trans (Nat.div_le_self _ _) (by omega)
  refine ⟨?_, Dvd.intro _ rfl, fun hle => ?_⟩
  · unfold LCD_EnableBlink
    rw [if_neg (by omega), hP', if_neg (by omega)]
    have hk : (if (if u32ms / P = 0 then 1 else u32ms / P) > 1024 then 1024
        else (if u32ms / P = 0 then 1 else u32ms / P)) = max 1 (min (u32ms / P) 1024) := by
      generalize u32ms / P = q
      simp only [Nat.max_def, Nat.min_def]
      split_ifs <;> omega
    simp only [hk]
    have hb : P * max 1 (min (u32ms / P) 1024) ≤ 2000 * 1024 :=
      Nat.mul_le_mul hPle (by omega)
    rw [Nat.mod_eq_of_lt (by omega)]
  · have hq : 1 ≤ u32ms / P := (Nat.le_div_iff_mul_le (by omega)).mpr (by omega)
    have hm : max 1 (min (u32ms / P) 1024) ≤ u32ms / P := by omega
    exact le_trans (Nat.mul_le_mul_left P hm) (Nat.mul_div_le u32ms P)

theorem LCD_EnableBlink_result_witness :
    (1 ≤ 32 ∧ 32 ≤ 1000 ∧ (31 : Nat) =
      (if 0 &&& sampleLcdHw.LCD_PSET_TYPE_Msk = sampleLcdHw.LCD_PSET_TYPE_Msk then 2000 / 32
        else 1000 / 32)) ∧
    LCD_EnableBlink sampleLcdHw 0 32 500 =
      some (31 * max 1 (min (500 / 31) 1024), max 1 (min (500 / 31) 1024)) :=
  ⟨by decide,
    (LCD_EnableBlink_result sampleLcdHw 0 32 500 31 (by decide) (by decide) (by decide)).1⟩

theorem pixel_mask (Com Seg : Nat) (hC : Com ≤ 7) :
    (((1 <<< Com) % 2 ^ 32) <<< ((8 * (Seg - 4 * (Seg / 4))) % 2 ^ 32)) % 2 ^ 32 =
      2 ^ (8 * (Seg % 4) + Com) := by
  have hs : (8 * (Seg - 4 * (Seg / 4))) % 2 ^ 32 = 8 * (Seg % 4) := by omega
  have h1 : (1 <<< Com) % 2 ^ 32 = 2 ^ Com := by
    rw [Nat.one_shiftLeft]
    exact Nat.mod_eq_of_lt (Nat.pow_lt_pow_right (by norm_num) (by omega))
  rw [hs, h1, Nat.shiftLeft_eq, ← Nat.pow_add, Nat.add_comm Com]
  exact Nat.mod_eq_of_lt (Nat.pow_lt_pow_right (by norm_num) (by omega))

theorem not32_two_pow_testBit (b i : Nat) (hb : b < 32) :
    (not32 (2 ^ b)).testBit i = (decide (i < 32) && !decide (b = i)) := by
  have hlt : 2 ^ b < 2 ^ 32 := Nat.pow_lt_pow_right (by norm_num) hb
  have e : not32 (2 ^ b) = 2 ^ 32 - (2 ^ b + 1) := by
    unfold not32
    rw [Nat.mod_eq_of_lt hlt]
    omega
  rw [e, Nat.testBit_two_pow_sub_succ hlt, Nat.testBit_two_pow]

/-- C19. For `u32Com` in 0..7 and `u32Seg` in 0..47, `LCD_SetPixel` sets (for a
non-zero `u32OnFlag`) or clears (for 0) bit `8 * (u32Seg mod 4) + u32Com` of
the data word `u32Seg / 4` and leaves every other bit of the 32-bit data words
unchanged; distinct pairs (com, seg) address distinct bits; for `u32Seg ≥ 48`
no data word changes. -/
theorem LCD_SetPixel_effect (DATA : Nat → Nat) (u32Com u32Seg u32OnFlag : Nat)
    (hC : u32Com ≤ 7) (hS : u32Seg ≤ 47) :
    (LCD_SetPixel DATA u32Com u32Seg u32OnFlag (u32Seg / 4)).testBit
        (8 * (u32Seg % 4) + u32Com) = decide (u32OnFlag ≠ 0) ∧
    (∀ j i, i < 32 → (j ≠ u32Seg / 4 ∨ i ≠ 8 * (u32Seg % 4) + u32Com) →
      (LCD_SetPixel DATA u32Com u32Seg u32OnFlag j).testBit i = (DATA j).testBit i) ∧
    (∀ c s, c ≤ 7 → s ≤ 47 → s / 4 = u32Seg / 4 →
      8 * (s % 4) + c = 8 * (u32Seg % 4) + u32Com → c = u32Com ∧ s = u32Seg) ∧
    (∀ s, 48 ≤ s → LCD_SetPixel DATA u32Com s u32OnFlag = DATA) := by
  have hb : 8 * (u32Seg % 4) + u32Com < 32 := by omega
  have hseg : u32Seg / 4 ≤ 11 := by omega
  refine ⟨?_, fun j i hi hne => ?_, fun c s hc hs h1 h2 => by omega, fun s hs => ?_⟩
  · unfold LCD_SetPixel
    simp only [if_pos hseg, pixel_mask u32Com u32Seg hC]
    by_cases hon : u32OnFlag ≠ 0
    · simp only [if_pos hon, Function.update_same, Nat.testBit_or, Nat.testBit_two_pow_self,
        Bool.or_true]
      exact (decide_eq_true hon).symm
    · simp only [if_neg hon, Function.update_same, Nat.testBit_and]
      rw [not32_two_pow_testBit _ _ hb, decide_eq_false hon]
      simp
  · unfold LCD_SetPixel
    simp only [if_pos hseg, pixel_mask u32Com u32Seg hC]
    by_cases hj : j = u32Seg / 4
    · have hi' : i ≠ 8 * (u32Seg % 4) + u32Com := by
        rcases hne with h | h
        · exact absurd hj h
        · exact h
      subst hj
      split_ifs
      · simp only [Function.update_same, Nat.testBit_or,
          Nat.testBit_two_pow_of_ne (Ne.symm hi'), Bool.or_false]
      · simp only [Function.update_same, Nat.testBit_and, not32_two_pow_testBit _ _ hb]
        simp [hi, Ne.symm hi']
    · split_ifs <;> simp only [Function.update_noteq hj]
  · unfold LCD_SetPixel
    rw [if_neg (by omega)]

theorem LCD_SetPixel_effect_witness :
    ((3 : Nat) ≤ 7 ∧ (13 : Nat) ≤ 47) ∧
    (LCD_SetPixel (fun _ => 0) 3 13 1 (13 / 4)).testBit (8 * (13 % 4) + 3) =
      decide ((1 : Nat) ≠ 0) :=
  ⟨by decide, (LCD_SetPixel_effect (fun _ => 0) 3 13 1 (by decide) (by decide)).1⟩

/-- C20 fails on the code: for a module whose divider-register index is 2,
`CLK_SetModuleClock` writes the divider to `CLKDIV0 + 0xC` while
`CLK_GetModuleClockDivider` reads `CLKDIV0 + 0x8`; starting from cleared
registers the divider 5 (which fits the mask 0xFF) is read back as 0. -/
theorem CLK_ModuleClockDivider_index2 :
    (sampleModHw.MODULE_CLKDIV_Msk 0xBFC00 ≠ sampleModHw.MODULE_NoMsk ∧
      sampleModHw.MODULE_CLKDIV 0xBFC00 = 2 ∧
      5 &&& sampleModHw.MODULE_CLKDIV_Msk 0xBFC00 = 5) ∧
    au32DivTbl[2]? = some 0xC ∧ au32DivTblGet[2]? = some 0x8 ∧
    (CLK_SetModuleClock sampleModHw 0xBFC00 0
        (5 <<< sampleModHw.MODULE_CLKDIV_Pos 0xBFC00) (fun _ => 0)).bind
      (CLK_GetModuleClockDivider sampleModHw 0xBFC00) = some 0 := by
  decide

theorem and_not32_and (x m : Nat) : (x &&& not32 m) &&& m = 0 := by
  apply Nat.eq_of_testBit_eq
  intro i
  have e : not32 m = 2 ^ 32 - (m % 2 ^ 32 + 1) := by
    unfold not32
    omega
  rw [Nat.testBit_and, Nat.testBit_and, e,
    Nat.testBit_two_pow_sub_succ (Nat.mod_lt _ (by norm_num)), Nat.testBit_mod_two_pow]
  simp only [Nat.zero_testBit]
  by_cases hi : i < 32 <;> simp [hi]

/-- C21. `CLK_PowerDown` returns 0 exactly when the LIRC enable bit of `PWRCTL`
is clear while the LIRC stable flag of `STATUS` is set, and then no register
is changed; otherwise it returns 1 and on return the SLEEPDEEP bit is clear and
`SYS->HIRCTRIMCTL` and `SYS->MIRCTRIMCTL` hold the values they had at entry,
whatever happened to the registers during `__WFI()`. -/
theorem CLK_PowerDown_result (ph : PdHw) (wfi : PdState → PdState) (s : PdState) :
    ((CLK_PowerDown ph wfi s).1 = 0 ↔
      (s.PWRCTL &&& ph.CLK_PWRCTL_LIRCEN_Msk = 0 ∧
        s.STATUS &&& ph.CLK_STATUS_LIRCSTB_Msk ≠ 0)) ∧
    ((s.PWRCTL &&& ph.CLK_PWRCTL_LIRCEN_Msk = 0 ∧
        s.STATUS &&& ph.CLK_STATUS_LIRCSTB_Msk ≠ 0) →
      (CLK_PowerDown ph wfi s).2 = s) ∧
    (¬ (s.PWRCTL &&& ph.CLK_PWRCTL_LIRCEN_Msk = 0 ∧
        s.STATUS &&& ph.CLK_STATUS_LIRCSTB_Msk ≠ 0) →
      (CLK_PowerDown ph wfi s).1 = 1 ∧
      (CLK_PowerDown ph wfi s).2.SCR &&& ph.SCB_SCR_SLEEPDEEP_Msk = 0 ∧
      (CLK_PowerDown ph wfi s).2.HIRCTRIMCTL = s.HIRCTRIMCTL ∧
      (CLK_PowerDown ph wfi s).2.MIRCTRIMCTL = s.MIRCTRIMCTL) := by
  by_cases h : s.PWRCTL &&& ph.CLK_PWRCTL_LIRCEN_Msk = 0 ∧
      s.STATUS &&& ph.CLK_STATUS_LIRCSTB_Msk ≠ 0
  · unfold CLK_PowerDown
    rw [if_pos h]
    exact ⟨⟨fun _ => h, fun _ => rfl⟩, fun _ => rfl, fun hn => absurd h hn⟩
  · unfold CLK_PowerDown
    rw [if_neg h]
    refine ⟨⟨fun h0 => ?_, fun h1 => absurd h1 h⟩, fun h1 => absurd h1 h,
      fun _ => ⟨rfl, and_not32_and _ _, rfl, rfl⟩⟩
    exact absurd (show (1 : Nat) = 0 from h0) (by decide)

theorem CLK_PowerDown_result_witness :
    ¬ (samplePdState.PWRCTL &&& samplePdHw.CLK_PWRCTL_LIRCEN_Msk = 0 ∧
        samplePdState.STATUS &&& samplePdHw.CLK_STATUS_LIRCSTB_Msk ≠ 0) ∧
    (CLK_PowerDown samplePdHw id samplePdState).1 = 1 ∧
    (CLK_PowerDown samplePdHw id samplePdState).2.HIRCTRIMCTL = samplePdState.HIRCTRIMCTL :=
  ⟨by decide, ((CLK_PowerDown_result samplePdHw id samplePdState).2.2 (by decide)).1,
    ((CLK_PowerDown_result samplePdHw id samplePdState).2.2 (by decide)).2.2.1⟩

theorem consider_zero (src f : Nat) (b : Best) (c : Nat × Nat × Nat) (h : b.u32Min = 0) :
    consider src f b c = b := by
  unfold consider
  rw [if_neg]
  rintro ⟨_, hlt⟩
  omega

theorem foldl_consider_zero (src f : Nat) (l : List (Nat × Nat × Nat)) (b : Best)
    (h : b.u32Min = 0) : l.foldl (consider src f) b = b := by
  induction l with
  | nil => rfl
  | cons c rest ih => rw [List.foldl_cons, consider_zero src f b c h, ih]

theorem consider_step (src f O R F : Nat) (b : Best)
    (hR : FREQ_4MHZ ≤ src / R ∧ src / R ≤ FREQ_8MHZ) :
    consider src f b (O, R, F) =
      if FREQ_64MHZ ≤ src / R * F % 2 ^ 32 ∧ src / R * F % 2 ^ 32 ≤ FREQ_100MHZ then
        if u32Tmp3 (src / R * F % 2 ^ 32) (scaleTarget f f O) O < b.u32Min then
          ⟨u32Tmp3 (src / R * F % 2 ^ 32) (scaleTarget f f O) O, R, F, O⟩
        else b
      else b := by
  unfold consider
  simp only [passes, candidate]
  by_cases h1 : FREQ_64MHZ ≤ src / R * F % 2 ^ 32 ∧ src / R * F % 2 ^ 32 ≤ FREQ_100MHZ
  · by_cases h2 : u32Tmp3 (src / R * F % 2 ^ 32) (scaleTarget f f O) O < b.u32Min
    · rw [if_pos h1, if_pos h2, if_pos ⟨⟨hR, h1⟩, h2⟩]
    · rw [if_pos h1, if_neg h2, if_neg (fun h => h2 h.2)]
  · rw [if_neg h1, if_neg (fun h => h1 h.1.2)]

theorem loopNF_eq_foldl (src f O R : Nat) (hR : FREQ_4MHZ ≤ src / R ∧ src / R ≤ FREQ_8MHZ)
    (l : List Nat) (b : Best) :
    loopNF (src / R) (scaleTarget f f O) O R l b =
      (l.map (fun F => (O, R, F))).foldl (consider src f) b := by
  induction l generalizing b with
  | nil => rfl
  | cons F rest ih =>
    rw [List.map_cons, List.foldl_cons, consider_step src f O R F b hR]
    simp only [loopNF]
    by_cases h1 : FREQ_64MHZ ≤ src / R * F % 2 ^ 32 ∧ src / R * F % 2 ^ 32 ≤ FREQ_100MHZ
    · by_cases h2 : u32Tmp3 (src / R * F % 2 ^ 32) (scaleTarget f f O) O < b.u32Min
      · rw [if_pos h1, if_pos h2, if_pos h1, if_pos h2]
        by_cases h3 : u32Tmp3 (src / R * F % 2 ^ 32) (scaleTarget f f O) O = 0
        · rw [if_pos h3, foldl_consider_zero src f _ _ h3]
        · rw [if_neg h3]
          exact ih _
      · rw [if_pos h1, if_neg h2, if_pos h1, if_neg h2]
        exact ih _
    · rw [if_neg h1, if_neg h1]
      exact ih _

theorem foldl_consider_fail (src f O R : Nat)
    (hR : ¬ (FREQ_4MHZ ≤ src / R ∧ src / R ≤ FREQ_8MHZ)) (l : List Nat) (b : Best) :
    (l.map (fun F => (O, R, F))).foldl (consider src f) b = b := by
  induction l with
  | nil => rfl
  | cons F rest ih =>
    rw [List.map_cons, List.foldl_cons]
    have : consider src f b (O, R, F) = b := by
      unfold consider
      rw [if_neg (fun h => hR h.1.1)]
    rw [this, ih]

theorem loopNR_eq_foldl (src f O : Nat) (l : List Nat) (b : Best) :
    loopNR src (scaleTarget f f O) O l b = (orderNR O l).foldl (consider src f) b := by
  induction l generalizing b with
  | nil => rfl
  | cons R rest ih =>
    unfold loopNR orderNR
    rw [List.foldl_append]
    by_cases hR : FREQ_4MHZ ≤ src / R ∧ src / R ≤ FREQ_8MHZ
    · rw [if_pos hR, loopNF_eq_foldl src f O R hR]
      exact ih _
    · rw [if_neg hR, foldl_consider_fail src f O R hR]
      exact ih _

theorem pllSearch_eq_foldl (src f : Nat) :
    pllSearch src f = searchOrder.foldl (consider src f) Best.init := by
  rw [pllSearch_unfold, loopNR_eq_foldl, loopNR_eq_foldl, loopNR_eq_foldl]
  unfold searchOrder
  rw [List.foldl_append, List.foldl_append]
  split_ifs with h1 h2
  · rw [foldl_consider_zero src f _ _ h1, foldl_consider_zero src f _ _ h1]
  · rw [foldl_consider_zero src f _ _ h2]
  · rfl

theorem foldl_first_min (src f : Nat) (L : List (Nat × Nat × Nat)) (b0 : Best) :
    (L.foldl (consider src f) b0 = b0 ∧
      ∀ c ∈ L, passes src c.2.1 c.2.2 →
        b0.u32Min ≤ (candidate src f c.1 c.2.1 c.2.2).u32Min) ∨
    ∃ pre c post, L = pre ++ c :: post ∧ passes src c.2.1 c.2.2 ∧
      L.foldl (consider src f) b0 = candidate src f c.1 c.2.1 c.2.2 ∧
      (candidate src f c.1 c.2.1 c.2.2).u32Min < b0.u32Min ∧
      (∀ c' ∈ pre, passes src c'.2.1 c'.2.2 →
        (candidate src f c.1 c.2.1 c.2.2).u32Min <
          (candidate src f c'.1 c'.2.1 c'.2.2).u32Min) ∧
      (∀ c' ∈ post, passes src c'.2.1 c'.2.2 →
        (candidate src f c.1 c.2.1 c.2.2).u32Min ≤
          (candidate src f c'.1 c'.2.1 c'.2.2).u32Min) := by
  induction L generalizing b0 with
  | nil => exact Or.inl ⟨rfl, fun c hc => absurd hc (List.not_mem_nil c)⟩
  | cons c0 L' ih =>
    rw [List.foldl_cons]
    by_cases hacc : passes src c0.2.1 c0.2.2 ∧
        (candidate src f c0.1 c0.2.1 c0.2.2).u32Min < b0.u32Min
    · have hc : consider src f b0 c0 = candidate src f c0.1 c0.2.1 c0.2.2 := by
        unfold consider; rw [if_pos hacc]
      rw [hc]
      rcases ih (candidate src f c0.1 c0.2.1 c0.2.2) with ⟨he, hall⟩ | ⟨pre, c, post, hL, hok,
        he, hlt, hpre, hpost⟩
      · exact Or.inr ⟨[], c0, L', rfl, hacc.1, he, hacc.2,
          fun c' hc' => absurd hc' (List.not_mem_nil c'), hall⟩
      · refine Or.inr ⟨c0 :: pre, c, post, by rw [hL]; rfl, hok, he, lt_trans hlt hacc.2, ?_,
          hpost⟩
        intro c' hc' hok'
        rcases List.mem_cons.mp hc' with rfl | hc'
        · exact hlt
        · exact hpre c' hc' hok'
    · have hc : consider src f b0 c0 = b0 := by
        unfold consider; rw [if_neg hacc]
      have h0 : passes src c0.2.1 c0.2.2 →
          b0.u32Min ≤ (candidate src f c0.1 c0.2.1 c0.2.2).u32Min :=
        fun hok => not_lt.mp (fun hlt => hacc ⟨hok, hlt⟩)
      rw [hc]
      rcases ih b0 with ⟨he, hall⟩ | ⟨pre, c, post, hL, hok, he, hlt, hpre, hpost⟩
      · refine Or.inl ⟨he, fun c' hc' hok' => ?_⟩
        rcases List.mem_cons.mp hc' with rfl | hc'
        · exact h0 hok'
        · exact hall c' hc' hok'
      · refine Or.inr ⟨c0 :: pre, c, post, by rw [hL]; rfl, hok, he, hlt, ?_, hpost⟩
        intro c' hc' hok'
        rcases List.mem_cons.mp hc' with rfl | hc'
        · exact lt_of_lt_of_le hlt (h0 hok')
        · exact hpre c' hc' hok'

/-- C22. For an in-range request the search keeps the first candidate, in the
iteration order (index 0, 1, 3, then R ascending, then F ascending), that
attains the minimum deviation: every passing candidate visited before the
winner has a strictly larger deviation and every one visited after it has a
deviation at least as large (so a candidate of deviation zero, once found, is
never replaced); when no candidate passes, the initial record stays. For the
12 MHz source and the request 57 MHz the candidates 64 MHz (R = 3, F = 16,
O = 0) and 50 MHz (R = 3, F = 25, O = 1) tie at 7 MHz and the search yields
(3, 16, 0), returning 64,000,000. -/
theorem pllSearch_first_minimum (src f : Nat) (hlo : 16000000 ≤ f) (hhi : f ≤ 100000000) :
    ((pllSearch src f = Best.init ∧ ∀ c ∈ searchOrder, ¬ passes src c.2.1 c.2.2) ∨
      ∃ pre c post, searchOrder = pre ++ c :: post ∧ passes src c.2.1 c.2.2 ∧
        pllSearch src f = candidate src f c.1 c.2.1 c.2.2 ∧
        (∀ c' ∈ pre, passes src c'.2.1 c'.2.2 →
          (pllSearch src f).u32Min < (candidate src f c'.1 c'.2.1 c'.2.2).u32Min) ∧
        (∀ c' ∈ post, passes src c'.2.1 c'.2.2 →
          (pllSearch src f).u32Min ≤ (candidate src f c'.1 c'.2.1 c'.2.2).u32Min)) ∧
    (pllSearch 12000000 57000000 = ⟨7000000, 3, 16, 0⟩ ∧
      (candidate 12000000 57000000 1 3 25).u32Min = 7000000 ∧
      pllReturn 12000000 (pllSearch 12000000 57000000) = some 64000000) := by
  have _h : FREQ_16MHZ ≤ f := hlo
  refine ⟨?_, by decide, by decide, by decide⟩
  rw [pllSearch_eq_foldl]
  rcases foldl_first_min src f searchOrder Best.init with ⟨he, hall⟩ | ⟨pre, c, post, hL, hok,
    he, _, hpre, hpost⟩
  · refine Or.inl ⟨he, fun c hc hok => ?_⟩
    have h1 := hall c hc hok
    have h2 := candidate_min_lt src f c.1 c.2.1 c.2.2 (by omega) hok
    simp only [Best.init] at h1
    omega
  · refine Or.inr ⟨pre, c, post, hL, hok, he, ?_, ?_⟩
    · rw [he]; exact hpre
    · rw [he]; exact hpost

theorem pllSearch_first_minimum_witness :
    (16000000 ≤ 57000000 ∧ 57000000 ≤ 100000000) ∧
    pllSearch 12000000 57000000 = ⟨7000000, 3, 16, 0⟩ ∧
    pllReturn 12000000 (pllSearch 12000000 57000000) = some 64000000 :=
  ⟨by decide, (pllSearch_first_minimum 12000000 57000000 (by decide) (by decide)).2.1,
    (pllSearch_first_minimum 12000000 57000000 (by decide) (by decide)).2.2.2⟩

end M25x
